import Mathlib

/-!
# gigabyte-ec: register/mode mapping engine

A shallow embedding of `src/gigabyte-ec.c` and `src/gigabyte-ec.h`.

* C structs become Lean structures with the same field names; `u8` fields are
  natural numbers (every value written in a profile is below 256) and C arrays
  are lists indexed with `List.getD`.
* The embedded controller is explicit state: a register file, a per-access
  failure oracle and the trace of transport accesses made so far.
* Functions that touch the EC take the state and return it next to their C
  return value; `printk` calls, which only log, are dropped.
-/

namespace GigabyteEC

/-! ## Data model (`gigabyte-ec.h`) -/

/-- Number of field locations of the fan family (`GIGABYTE_EC_N_OF_ADDRESS`). -/
def GIGABYTE_EC_N_OF_ADDRESS : Nat := 6

/-- Kernel errno `EINVAL`; the handlers return `-EINVAL`. -/
def EINVAL : Int := 22

/-- Entry of a mode table: `name` is `none` for the NULL sentinel, `value` is
`u8 value[GIGABYTE_EC_N_OF_ADDRESS]`. -/
structure gigabyte_ec_mode where
  name : Option String
  value : List Nat
deriving DecidableEq, Repr

/-- Field location: register address, size in bits (1 or 8) and bit index. -/
structure gigabyte_ec_addr_bit where
  addr : Nat
  size : Nat
  bit : Nat
deriving DecidableEq, Repr

/-- Fan family: `addr_bit[GIGABYTE_EC_N_OF_ADDRESS]` and `modes[6]`. -/
structure gigabyte_ec_fan_mode_conf where
  addr_bit : List gigabyte_ec_addr_bit
  modes : List gigabyte_ec_mode
deriving DecidableEq, Repr

/-- Charging family: `addr_bit[2]` and `modes[3]`. -/
structure gigabyte_ec_charging_mode_conf where
  addr_bit : List gigabyte_ec_addr_bit
  modes : List gigabyte_ec_mode
deriving DecidableEq, Repr

/-- Charge threshold: inclusive range and `addr_bit[1]`. -/
structure gigabyte_ec_charge_control_threshold_conf where
  range_min : Nat
  range_max : Nat
  addr_bit : List gigabyte_ec_addr_bit
deriving DecidableEq, Repr

/-- Board profile (`struct gigabyte_ec_conf`). -/
structure gigabyte_ec_conf where
  fan_mode : gigabyte_ec_fan_mode_conf
  charging_mode : gigabyte_ec_charging_mode_conf
  charge_threshold : gigabyte_ec_charge_control_threshold_conf
deriving DecidableEq, Repr

/-- The macro `GIGABYTE_EC_MODE_NULL`, also what C zero-initialisation leaves in
the array slots without an initialiser. -/
def GIGABYTE_EC_MODE_NULL : gigabyte_ec_mode := ⟨none, [0, 0, 0, 0, 0, 0]⟩

/-- A zero-initialised `struct gigabyte_ec_addr_bit`. -/
def addr_bit_zero : gigabyte_ec_addr_bit := ⟨0, 0, 0⟩

def FM_NORMAL_NAME : String := "normal"

def FM_ECO_NAME : String := "eco"

def FM_POWER_NAME : String := "power"

def FM_TURBO_NAME : String := "turbo"

def CM_STANDARD_NAME : String := "standard"

def CM_CUSTOM_NAME : String := "custom"

/-- The profile of the AORUS 5 KE board. Array slots the C initialiser leaves out
are written out with the zeros C puts there. -/
def AORUS5KE0 : gigabyte_ec_conf where
  fan_mode :=
    { addr_bit := [⟨0x06, 1, 4⟩, ⟨0x08, 1, 6⟩, ⟨0x0C, 1, 4⟩, ⟨0x0D, 1, 7⟩, ⟨0xB0, 8, 0⟩, ⟨0xB1, 8, 0⟩]
      modes :=
        [ ⟨some FM_NORMAL_NAME, [0, 0, 0, 0, 0x39, 0x39]⟩,
          ⟨some FM_ECO_NAME, [0, 1, 0, 0, 0x39, 0x39]⟩,
          ⟨some FM_POWER_NAME, [0, 0, 1, 0, 0x39, 0x39]⟩,
          ⟨some FM_TURBO_NAME, [1, 0, 0, 1, 0xE5, 0xE5]⟩,
          GIGABYTE_EC_MODE_NULL,
          GIGABYTE_EC_MODE_NULL ] }
  charging_mode :=
    { addr_bit := [⟨0x0F, 1, 2⟩, ⟨0xA9, 8, 0⟩]
      modes :=
        [ ⟨some CM_STANDARD_NAME, [0, 0x61, 0, 0, 0, 0]⟩,
          ⟨some CM_CUSTOM_NAME, [1, 0x3C, 0, 0, 0, 0]⟩,
          ⟨none, [0, 0, 0, 0, 0, 0]⟩ ] }
  charge_threshold :=
    { range_min := 60
      range_max := 100
      addr_bit := [⟨0xA9, 8, 0⟩] }

/-! ## The embedded controller

`ec_read` and `ec_write` are kernel services, not code of the driver. They are
modelled by a simulated EC: a register file that stores what is written, and an
oracle that says which transport accesses fail. -/

/-- One transport access, as recorded in the trace. -/
inductive ec_access where
  | read (addr : Nat)
  | write (addr : Nat) (val : Nat)
deriving DecidableEq, Repr

/-- Simulated EC. `mem a % 256` is the byte at address `a`. The access number `k`
(counted over the whole trace) fails with return value `-(err k)` when
`err k ≠ 0` and succeeds with return value `0` otherwise. `log` lists the
accesses attempted so far, oldest first, failed ones included. -/
structure EC where
  mem : Nat → Nat
  err : Nat → Nat
  log : List ec_access

/-- The byte the EC holds at an address. -/
def EC.byte (s : EC) (addr : Nat) : Nat := s.mem addr % 256

/-- Every transport access from this state on succeeds. -/
def EC.reliable (s : EC) : Prop := ∀ k, s.err k = 0

/-- Kernel `ec_read(addr, &val)`: on success stores the byte in `*val` and returns
0; on failure returns a negative errno and leaves `*val` alone. The argument
`val` is the content of `*val` before the call. -/
def ec_read (addr : Nat) (val : Nat) (s : EC) : Int × Nat × EC :=
  let s1 : EC := { s with log := s.log ++ [ec_access.read addr] }
  if s.err s.log.length = 0 then (0, s.mem addr % 256, s1)
  else (-(s.err s.log.length : Int), val, s1)

/-- Kernel `ec_write(addr, val)`: on success the register holds the byte `val`
and 0 is returned; on failure a negative errno is returned and the register file
is as before. -/
def ec_write (addr : Nat) (val : Nat) (s : EC) : Int × EC :=
  if s.err s.log.length = 0 then
    (0, { s with mem := Function.update s.mem addr (val % 256)
                 log := s.log ++ [ec_access.write addr val] })
  else
    (-(s.err s.log.length : Int), { s with log := s.log ++ [ec_access.write addr val] })

/-- Kernel `sysfs_emit(buf, text)`: the text lands in `buf` and its length is
returned. -/
def sysfs_emit (text : String) : Int × String := ((text.length : Int), text)

/-! ## Strings -/

/-- The C string a `char *` points to: the bytes before the first NUL. -/
def cstr (buf : List Char) : List Char := buf.takeWhile (fun c => c ≠ Char.ofNat 0)

/-- Kernel `strcmp` (lib/string.c): -1, 0 or 1. Both arguments are C string
contents, the terminating NUL being the end of the list. -/
def strcmp : List Char → List Char → Int
  | [], [] => 0
  | [], _ :: _ => -1
  | _ :: _, [] => 1
  | a :: as, b :: bs => if a = b then strcmp as bs else if a.toNat < b.toNat then -1 else 1

/-- Source `strcmp_trim_newline2` (gigabyte-ec.c:94). `s_nl_length - 1` is
computed in `size_t`, so it wraps to `2^64 - 1` for the empty string. -/
def strcmp_trim_newline2 (s : List Char) (s_nl : List Char) : Int :=
  let s_nl_length := s_nl.length
  if (s_nl_length + 2 ^ 64 - 1) % 2 ^ 64 > 10 then -1
  else if s_nl.getD (s_nl_length - 1) (Char.ofNat 0) = '\n' then
    let s2 := s_nl.take (s_nl_length - 1)
    strcmp s s2
  else strcmp s s_nl

/-! ## Field codec -/

/-- Source `ec_get_bit` (gigabyte-ec.c:111). `output` is `*output` before the
call; the result carries `*output` after it. -/
def ec_get_bit (addr : Nat) (bit : Nat) (output : Nat) (s : EC) : Int × Nat × EC :=
  match ec_read addr 0 s with
  | (result, ec_result, s1) =>
    if result < 0 then (result, output, s1)
    else (result, (ec_result >>> bit) &&& 1, s1)

/-- Source `ec_set_bit` (gigabyte-ec.c:126). `1 << bit` is an `int`; its
complement is taken on 32 bits and the assignment to the `u8` keeps the low
byte. -/
def ec_set_bit (addr : Nat) (b : Nat) (bit : Nat) (s : EC) : Int × EC :=
  match ec_read addr 0 s with
  | (ec_result, stored, s1) =>
    if ec_result < 0 then (ec_result, s1)
    else
      let stored1 :=
        if b > 0 then (stored ||| (1 <<< bit)) % 256
        else (stored &&& (0xFFFFFFFF ^^^ (1 <<< bit))) % 256
      ec_write addr stored1 s1

/-- Source `write_addr_bit` (gigabyte-ec.c:149). -/
def write_addr_bit (addr_bit : gigabyte_ec_addr_bit) (value : Nat) (s : EC) : Int × EC :=
  let addr := addr_bit.addr
  let size := addr_bit.size
  if size = 1 then ec_set_bit addr value addr_bit.bit s
  else if size = 8 then ec_write addr value s
  else (0, s)

/-- Source `read_addr_bit` (gigabyte-ec.c:168). `value` is `*value` before the
call; the result carries `*value` after it. -/
def read_addr_bit (addr_bit : gigabyte_ec_addr_bit) (value : Nat) (s : EC) : Int × Nat × EC :=
  let addr := addr_bit.addr
  let size := addr_bit.size
  if size = 1 then ec_get_bit addr addr_bit.bit value s
  else if size = 8 then ec_read addr value s
  else (0, value, s)

/-! ## Fan mode -/

/-- The loop of `gigabyte_change_fan_mode`: `n` iterations are left, `i` is the
loop variable, `result` the value the variable holds so far. -/
def gigabyte_change_fan_mode.loop (ec_conf : gigabyte_ec_conf) (mode : Nat) :
    Nat → Nat → Int → EC → Int × EC
  | 0, _, result, s => (result, s)
  | n + 1, i, _, s =>
    let value := ((ec_conf.fan_mode.modes.getD mode GIGABYTE_EC_MODE_NULL).value).getD i 0
    match write_addr_bit (ec_conf.fan_mode.addr_bit.getD i addr_bit_zero) value s with
    | (result, s1) => gigabyte_change_fan_mode.loop ec_conf mode n (i + 1) result s1

/-- Source `gigabyte_change_fan_mode` (gigabyte-ec.c:188). -/
def gigabyte_change_fan_mode (ec_conf : gigabyte_ec_conf) (mode : Nat) (s : EC) : Int × EC :=
  gigabyte_change_fan_mode.loop ec_conf mode GIGABYTE_EC_N_OF_ADDRESS 0 0 s

/-- The inner loop of `fan_mode_show` over the field index `j`, `n` iterations
left. A negative first component is the `goto error_ec`. -/
def fan_mode_show.fields (ec_conf : gigabyte_ec_conf) (values : List Nat) :
    Nat → Nat → Bool → Nat → EC → Int × Bool × Nat × EC
  | 0, _, found, stored, s => (0, found, stored, s)
  | n + 1, j, found, stored, s =>
    let value := values.getD j 0
    match read_addr_bit (ec_conf.fan_mode.addr_bit.getD j addr_bit_zero) stored s with
    | (result, stored1, s1) =>
      if result < 0 then (result, found, stored1, s1)
      else
        fan_mode_show.fields ec_conf values n (j + 1)
          (if stored1 ≠ value then false else found) stored1 s1

/-- The outer loop of `fan_mode_show` over the entries of `modes` from the
current one on; it ends at the first entry without a name. -/
def fan_mode_show.modes (ec_conf : gigabyte_ec_conf) :
    List gigabyte_ec_mode → Nat → EC → Int × String × EC
  | [], _, s => ((sysfs_emit "unknown\n").1, (sysfs_emit "unknown\n").2, s)
  | m :: rest, stored, s =>
    match m.name with
    | none => ((sysfs_emit "unknown\n").1, (sysfs_emit "unknown\n").2, s)
    | some name =>
      match fan_mode_show.fields ec_conf m.value GIGABYTE_EC_N_OF_ADDRESS 0 true stored s with
      | (result, found, stored1, s1) =>
        if result < 0 then ((sysfs_emit "error\n").1, (sysfs_emit "error\n").2, s1)
        else if found then
          ((sysfs_emit (name ++ "\n")).1, (sysfs_emit (name ++ "\n")).2, s1)
        else fan_mode_show.modes ec_conf rest stored1 s1

/-- Source `fan_mode_show` (gigabyte-ec.c:203). `stored` is the content of the
uninitialised local of that name. The result is the return value, the text
emitted into `buf` (empty when nothing is emitted) and the EC afterwards. -/
def fan_mode_show (conf_loaded : Bool) (ec_conf : gigabyte_ec_conf) (stored : Nat) (s : EC) :
    Int × String × EC :=
  if !conf_loaded then (-EINVAL, "", s)
  else fan_mode_show.modes ec_conf ec_conf.fan_mode.modes stored s

/-- The loop of `fan_mode_store` over the entries of `modes` from index `i` on. -/
def fan_mode_store.modes (ec_conf : gigabyte_ec_conf) (buf : List Char) (count : Nat) :
    List gigabyte_ec_mode → Nat → EC → Int × EC
  | [], _, s => (-EINVAL, s)
  | m :: rest, i, s =>
    match m.name with
    | none => (-EINVAL, s)
    | some name =>
      if strcmp_trim_newline2 name.data (cstr buf) = 0 then
        ((count : Int), (gigabyte_change_fan_mode ec_conf i s).2)
      else fan_mode_store.modes ec_conf buf count rest (i + 1) s

/-- Source `fan_mode_store` (gigabyte-ec.c:234). `buf` holds the bytes written
by the caller; the kernel puts a NUL after them. -/
def fan_mode_store (conf_loaded : Bool) (ec_conf : gigabyte_ec_conf) (buf : List Char)
    (count : Nat) (s : EC) : Int × EC :=
  if !conf_loaded || count = 0 then (-EINVAL, s)
  else fan_mode_store.modes ec_conf buf count ec_conf.fan_mode.modes 0 s

/-! ## Charging mode -/

/-- The loop of `gigabyte_change_charging_mode`, `n` iterations left. -/
def gigabyte_change_charging_mode.loop (ec_conf : gigabyte_ec_conf) (mode : Nat) :
    Nat → Nat → Int → EC → Int × EC
  | 0, _, result, s => (result, s)
  | n + 1, i, _, s =>
    let value := ((ec_conf.charging_mode.modes.getD mode GIGABYTE_EC_MODE_NULL).value).getD i 0
    match write_addr_bit (ec_conf.charging_mode.addr_bit.getD i addr_bit_zero) value s with
    | (result, s1) => gigabyte_change_charging_mode.loop ec_conf mode n (i + 1) result s1

/-- Source `gigabyte_change_charging_mode` (gigabyte-ec.c:253). -/
def gigabyte_change_charging_mode (ec_conf : gigabyte_ec_conf) (mode : Nat) (s : EC) :
    Int × EC :=
  gigabyte_change_charging_mode.loop ec_conf mode 2 0 0 s

/-- The loop of `charging_mode_show` over the entries of `modes`; only the first
field location is read. -/
def charging_mode_show.modes (ec_conf : gigabyte_ec_conf) :
    List gigabyte_ec_mode → Nat → EC → Int × String × EC
  | [], _, s => ((sysfs_emit "unknown\n").1, (sysfs_emit "unknown\n").2, s)
  | m :: rest, stored, s =>
    match m.name with
    | none => ((sysfs_emit "unknown\n").1, (sysfs_emit "unknown\n").2, s)
    | some name =>
      let value := m.value.getD 0 0
      match read_addr_bit (ec_conf.charging_mode.addr_bit.getD 0 addr_bit_zero) stored s with
      | (result, stored1, s1) =>
        if result < 0 then ((sysfs_emit "error\n").1, (sysfs_emit "error\n").2, s1)
        else if (if stored1 ≠ value then false else true) then
          ((sysfs_emit (name ++ "\n")).1, (sysfs_emit (name ++ "\n")).2, s1)
        else charging_mode_show.modes ec_conf rest stored1 s1

/-- Source `charging_mode_show` (gigabyte-ec.c:269). -/
def charging_mode_show (conf_loaded : Bool) (ec_conf : gigabyte_ec_conf) (stored : Nat)
    (s : EC) : Int × String × EC :=
  if !conf_loaded then (-EINVAL, "", s)
  else charging_mode_show.modes ec_conf ec_conf.charging_mode.modes stored s

/-- The loop of `charging_mode_store` over the entries of `modes` from index `i`
on. -/
def charging_mode_store.modes (ec_conf : gigabyte_ec_conf) (buf : List Char) (count : Nat) :
    List gigabyte_ec_mode → Nat → EC → Int × EC
  | [], _, s => (-EINVAL, s)
  | m :: rest, i, s =>
    match m.name with
    | none => (-EINVAL, s)
    | some name =>
      if strcmp_trim_newline2 name.data (cstr buf) = 0 then
        ((count : Int), (gigabyte_change_charging_mode ec_conf i s).2)
      else charging_mode_store.modes ec_conf buf count rest (i + 1) s

/-- Source `charging_mode_store` (gigabyte-ec.c:300). -/
def charging_mode_store (conf_loaded : Bool) (ec_conf : gigabyte_ec_conf) (buf : List Char)
    (count : Nat) (s : EC) : Int × EC :=
  if !conf_loaded || count = 0 then (-EINVAL, s)
  else charging_mode_store.modes ec_conf buf count ec_conf.charging_mode.modes 0 s

/-! ## Charge threshold -/

/-- Source `charge_control_threshold_show` (gigabyte-ec.c:318); `"%u"` prints the
byte in decimal. -/
def charge_control_threshold_show (conf_loaded : Bool) (ec_conf : gigabyte_ec_conf)
    (stored : Nat) (s : EC) : Int × String × EC :=
  if !conf_loaded then (-EINVAL, "", s)
  else
    match read_addr_bit (ec_conf.charge_threshold.addr_bit.getD 0 addr_bit_zero) stored s with
    | (result, stored1, s1) =>
      if result < 0 then (result, "", s1)
      else ((sysfs_emit (toString stored1)).1, (sysfs_emit (toString stored1)).2, s1)

/-- Source `charge_control_threshold_store` (gigabyte-ec.c:334). The kernel
parser `kstrtou8(buf, 10, &store)` is a parameter: `Except.error` stands for a
negative return value, `Except.ok v` for return value 0 with `store = v`. -/
def charge_control_threshold_store (kstrtou8 : List Char → Except Int Nat)
    (conf_loaded : Bool) (ec_conf : gigabyte_ec_conf) (buf : List Char) (count : Nat)
    (s : EC) : Int × EC :=
  if !conf_loaded || count = 0 then (-EINVAL, s)
  else
    match kstrtou8 (cstr buf) with
    | Except.error _ => (-EINVAL, s)
    | Except.ok store =>
      if store < ec_conf.charge_threshold.range_min ∨
          store > ec_conf.charge_threshold.range_max then (-EINVAL, s)
      else
        match write_addr_bit (ec_conf.charge_threshold.addr_bit.getD 0 addr_bit_zero) store s with
        | (result, s1) => if result < 0 then (result, s1) else ((count : Int), s1)

/-! ## Observed field values

What the claims call the field values read from the EC, written down from the
data model of the specification rather than from the handlers. -/

/-- Value of one field in a register file: a bit field is bit `bit` of the byte at
`addr` (0 or 1), a byte field is the byte at `addr`. -/
def field_value (loc : gigabyte_ec_addr_bit) (s : EC) : Nat :=
  if loc.size = 1 then ((s.byte loc.addr).testBit loc.bit).toNat else s.byte loc.addr

/-- The vector of field values of a family, one per field location. -/
def observed (locs : List gigabyte_ec_addr_bit) (s : EC) : List Nat :=
  locs.map (fun loc => field_value loc s)

/-- The six field values of the fan family: bit 4 of 0x06, bit 6 of 0x08, bit 4 of
0x0C, bit 7 of 0x0D, byte 0xB0, byte 0xB1. -/
def fan_observed (s : EC) : List Nat := observed AORUS5KE0.fan_mode.addr_bit s

/-- The two field values of the charging family: bit 2 of 0x0F, byte 0xA9. -/
def charging_observed (s : EC) : List Nat := observed AORUS5KE0.charging_mode.addr_bit s

/-- The trace of one pass of `fan_mode_show` over the six fan fields. -/
def fan_reads : List ec_access :=
  [ec_access.read 0x06, ec_access.read 0x08, ec_access.read 0x0C, ec_access.read 0x0D,
   ec_access.read 0xB0, ec_access.read 0xB1]

/-- The setter in the words of the specification (section 4.3): write
`values[i]` to `fields[i]` for every field index in order, through the codec,
going on to the next field whatever the outcome of a write. -/
def apply_mode (fields : List gigabyte_ec_addr_bit) (values : List Nat) (s : EC) : EC :=
  (fields.zip values).foldl (fun t fv => (write_addr_bit fv.1 fv.2 t).2) s

/-- What a field holds after a successful write of `v`: a bit field holds 1 when
`v` is nonzero and 0 otherwise, a byte field holds the byte `v`. -/
def written_value (loc : gigabyte_ec_addr_bit) (v : Nat) : Nat :=
  if loc.size = 1 then (if v > 0 then 1 else 0) else v % 256

/-- A register file of zeros behind a transport that never fails. -/
def ec_zero : EC := ⟨fun _ => 0, fun _ => 0, []⟩

/-- A register file of ones behind a transport on which every access fails with
`-EIO`. -/
def ec_dead : EC := ⟨fun _ => 0xFF, fun _ => 5, []⟩

/-- The observed vector `obs` equals the expected vector `vals` in all of the
first `n` fields except exactly one. -/
def differs_in_exactly_one (n : Nat) (obs vals : List Nat) : Prop :=
  ∃ k, k < n ∧ obs.getD k 0 ≠ vals.getD k 0 ∧
    ∀ j, j < n → j ≠ k → obs.getD j 0 = vals.getD j 0

/-- Bit 2 of 0x0F clear (the first field of "standard") while byte 0xA9 holds 0x3C
(the second field of "custom"), behind a transport that never fails. -/
def ec_custom_threshold : EC := ⟨fun a => if a = 0xA9 then 0x3C else 0, fun _ => 0, []⟩

/-- A run from `s` to `t` that only reads: registers and oracle are untouched, the
trace grows by reads, every access of the run but possibly the last succeeded,
and `failed` tells whether the last one failed. -/
def reads_until_failure (s t : EC) (failed : Bool) : Prop :=
  t.mem = s.mem ∧ t.err = s.err ∧
  (∃ ops, t.log = s.log ++ ops ∧ ∀ o ∈ ops, ∃ a, o = ec_access.read a) ∧
  (∀ k, s.log.length ≤ k → k + 1 < t.log.length → s.err k = 0) ∧
  (failed = true → s.log.length < t.log.length ∧ s.err (t.log.length - 1) ≠ 0) ∧
  (failed = false → ∀ k, s.log.length ≤ k → k < t.log.length → s.err k = 0)

/-- A register file of zeros behind a transport on which the first access fails
with `-EIO` and every later access succeeds. -/
def ec_first_fails : EC := ⟨fun _ => 0, fun k => if k = 0 then 5 else 0, []⟩

/-- The register file of fan mode turbo: bit 4 of 0x06 and bit 7 of 0x0D set, bytes
0xB0 and 0xB1 at 0xE5, zeros elsewhere, behind a transport that never fails. -/
def ec_turbo : EC :=
  ⟨fun a => if a = 0x06 then 0x10 else if a = 0x0D then 0x80
      else if a = 0xB0 then 0xE5 else if a = 0xB1 then 0xE5 else 0,
   fun _ => 0, []⟩

/-- Source `strcmp_trim_newline2` (gigabyte-ec.c:94) with the kernel comparison it
calls as a parameter `cmp`; `strcmp_trim_newline2` is this function at `strcmp`. A
result that is the same for every `cmp` is one returned without comparing. -/
def strcmp_trim_newline2_with (cmp : List Char → List Char → Int) (s : List Char)
    (s_nl : List Char) : Int :=
  let s_nl_length := s_nl.length
  if (s_nl_length + 2 ^ 64 - 1) % 2 ^ 64 > 10 then -1
  else if s_nl.getD (s_nl_length - 1) (Char.ofNat 0) = '\n' then
    let s2 := s_nl.take (s_nl_length - 1)
    cmp s s2
  else cmp s s_nl

/-- The register file of charging mode custom: bit 2 of 0x0F set and byte 0xA9 at
0x3C, zeros elsewhere, behind a transport that never fails. -/
def ec_custom : EC :=
  ⟨fun a => if a = 0x0F then 0x04 else if a = 0xA9 then 0x3C else 0, fun _ => 0, []⟩

/-! ## Bit-level facts -/

theorem and_one_shiftRight (x b : Nat) : (x >>> b) &&& 1 = (x.testBit b).toNat := by
  rw [Nat.and_one_is_mod, Nat.shiftRight_eq_div_pow, Nat.testBit_to_div_mod]
  rcases Nat.mod_two_eq_zero_or_one (x / 2 ^ b) with h | h <;> simp [h]

theorem testBit_set (x b i : Nat) :
    ((x ||| (1 <<< b)) % 256).testBit i = (decide (i < 8) && (x.testBit i || decide (i = b))) := by
  have h256 : (256 : Nat) = 2 ^ 8 := by norm_num
  rw [h256, Nat.testBit_mod_two_pow, Nat.testBit_or, Nat.one_shiftLeft, Nat.testBit_two_pow]
  by_cases h : i = b
  · subst h; simp
  · have h2 : ¬ b = i := fun e => h e.symm
    simp [h, h2]

theorem testBit_clear (x b i : Nat) :
    ((x &&& (0xFFFFFFFF ^^^ (1 <<< b))) % 256).testBit i
      = (decide (i < 8) && (x.testBit i && !decide (i = b))) := by
  have h256 : (256 : Nat) = 2 ^ 8 := by norm_num
  have hF : (0xFFFFFFFF : Nat) = 2 ^ 32 - 1 := by norm_num
  rw [h256, Nat.testBit_mod_two_pow, Nat.testBit_and, Nat.testBit_xor, hF,
    Nat.testBit_two_pow_sub_one, Nat.one_shiftLeft, Nat.testBit_two_pow]
  clear h256 hF
  by_cases h8 : i < 8
  · have h32 : i < 32 := by omega
    by_cases h : i = b
    · subst h; simp [h32]
    · have h2 : ¬ b = i := fun e => h e.symm
      simp [h, h2, h32]
  · simp [h8]

theorem testBit_byte_high (x i : Nat) (hi : 8 ≤ i) : (x % 256).testBit i = false := by
  have h256 : (256 : Nat) = 2 ^ 8 := by norm_num
  rw [h256, Nat.testBit_mod_two_pow]
  simp; omega

/-! ## The codec on a transport that succeeds -/

theorem ec_read_ok (addr val : Nat) (s : EC) (h : s.err s.log.length = 0) :
    ec_read addr val s
      = (0, s.mem addr % 256, { s with log := s.log ++ [ec_access.read addr] }) := by
  simp [ec_read, h]

theorem ec_write_ok (addr val : Nat) (s : EC) (h : s.err s.log.length = 0) :
    ec_write addr val s
      = (0, { s with mem := Function.update s.mem addr (val % 256)
                     log := s.log ++ [ec_access.write addr val] }) := by
  simp [ec_write, h]

/-- The byte `ec_set_bit` writes back for the old byte `x`. -/
theorem ec_set_bit_ok (addr b bit : Nat) (s : EC) (h0 : s.err s.log.length = 0)
    (h1 : s.err (s.log.length + 1) = 0) :
    ec_set_bit addr b bit s
      = (0, { s with
              mem := Function.update s.mem addr
                ((if b > 0 then (s.mem addr % 256 ||| (1 <<< bit)) % 256
                  else (s.mem addr % 256 &&& (0xFFFFFFFF ^^^ (1 <<< bit))) % 256) % 256)
              log := s.log ++ [ec_access.read addr] ++
                [ec_access.write addr
                  (if b > 0 then (s.mem addr % 256 ||| (1 <<< bit)) % 256
                   else (s.mem addr % 256 &&& (0xFFFFFFFF ^^^ (1 <<< bit))) % 256)] }) := by
  simp [ec_set_bit, ec_read_ok _ _ _ h0, ec_write, h1]

/-- C2. Bit preservation: when the read and the write of `ec_set_bit` succeed,
writing the bit field at address `A`, bit `b` (`write_addr_bit` with size 1)
returns 0, leaves every bit of the byte at `A` other than `b` as it was, makes bit
`b` equal to "`v` is nonzero", and leaves every other register as it was. -/
theorem write_bit_preserves_other_bits (s : EC) (A b v : Nat) (hb : b < 8)
    (hread : s.err s.log.length = 0) (hwrite : s.err (s.log.length + 1) = 0) :
    (write_addr_bit ⟨A, 1, b⟩ v s).1 = 0 ∧
    (∀ i, i ≠ b →
      ((write_addr_bit ⟨A, 1, b⟩ v s).2.byte A).testBit i = (s.byte A).testBit i) ∧
    ((write_addr_bit ⟨A, 1, b⟩ v s).2.byte A).testBit b = decide (v ≠ 0) ∧
    (∀ a, a ≠ A → (write_addr_bit ⟨A, 1, b⟩ v s).2.mem a = s.mem a) := by
  have hw : write_addr_bit ⟨A, 1, b⟩ v s = ec_set_bit A v b s := by simp [write_addr_bit]
  rw [hw, ec_set_bit_ok A v b s hread hwrite]
  refine ⟨rfl, ?_, ?_, ?_⟩
  · intro i hi
    by_cases h8 : i < 8
    · by_cases hv : v > 0
      · simp [EC.byte, hv, testBit_set, h8, hi]
      · simp [EC.byte, hv, testBit_clear, h8, hi]
    · have h8 : 8 ≤ i := by omega
      simp only [EC.byte]
      rw [testBit_byte_high _ _ h8, testBit_byte_high _ _ h8]
  · by_cases hv : v > 0
    · have hv0 : v ≠ 0 := by omega
      simp [EC.byte, hv, hv0, testBit_set, hb]
    · have hv0 : v = 0 := by omega
      simp [EC.byte, hv0, testBit_clear, hb]
  · intro a ha
    simp [Function.update, ha]

/-- Witness for C2 on the all-ones register file: clearing bit 4 of 0x06. -/
theorem write_bit_preserves_other_bits_witness :
    (write_addr_bit ⟨0x06, 1, 4⟩ 0 ⟨fun _ => 0xFF, fun _ => 0, []⟩).1 = 0 ∧
    (∀ i, i ≠ 4 →
      ((write_addr_bit ⟨0x06, 1, 4⟩ 0 ⟨fun _ => 0xFF, fun _ => 0, []⟩).2.byte 0x06).testBit i
        = ((⟨fun _ => 0xFF, fun _ => 0, []⟩ : EC).byte 0x06).testBit i) ∧
    ((write_addr_bit ⟨0x06, 1, 4⟩ 0 ⟨fun _ => 0xFF, fun _ => 0, []⟩).2.byte 0x06).testBit 4
      = decide ((0 : Nat) ≠ 0) ∧
    (∀ a, a ≠ 0x06 →
      (write_addr_bit ⟨0x06, 1, 4⟩ 0 ⟨fun _ => 0xFF, fun _ => 0, []⟩).2.mem a
        = (⟨fun _ => 0xFF, fun _ => 0, []⟩ : EC).mem a) :=
  write_bit_preserves_other_bits ⟨fun _ => 0xFF, fun _ => 0, []⟩ 0x06 4 0 (by decide) rfl rfl

/-! ## The matchers on a transport that succeeds -/

theorem reliable_with_log (s : EC) (h : s.reliable) (l : List ec_access) :
    ({ s with log := l } : EC).reliable := h

theorem read_addr_bit_ok (loc : gigabyte_ec_addr_bit) (value : Nat) (s : EC)
    (hsz : loc.size = 1 ∨ loc.size = 8) (h : s.err s.log.length = 0) :
    read_addr_bit loc value s
      = (0, field_value loc s, { s with log := s.log ++ [ec_access.read loc.addr] }) := by
  rcases hsz with h1 | h8
  · simp only [read_addr_bit, h1, ec_get_bit, ec_read_ok _ _ _ h, field_value, EC.byte,
      and_one_shiftRight, lt_self_iff_false, if_false, if_true]
  · simp [read_addr_bit, h8, ec_read_ok _ _ _ h, field_value, EC.byte]

theorem field_value_with_log (loc : gigabyte_ec_addr_bit) (s : EC) (l : List ec_access) :
    field_value loc { s with log := l } = field_value loc s := rfl

theorem fan_fields_reliable (ec_conf : gigabyte_ec_conf) (values : List Nat) :
    ∀ (n j : Nat) (found : Bool) (stored : Nat) (s : EC), s.reliable →
      (∀ i, j ≤ i → i < j + n →
        (ec_conf.fan_mode.addr_bit.getD i addr_bit_zero).size = 1 ∨
        (ec_conf.fan_mode.addr_bit.getD i addr_bit_zero).size = 8) →
      fan_mode_show.fields ec_conf values n j found stored s
        = (0,
           found && (List.range' j n).all (fun i =>
             decide (field_value (ec_conf.fan_mode.addr_bit.getD i addr_bit_zero) s
               = values.getD i 0)),
           (if n = 0 then stored
            else field_value (ec_conf.fan_mode.addr_bit.getD (j + n - 1) addr_bit_zero) s),
           { s with log := s.log ++ (List.range' j n).map (fun i =>
               ec_access.read (ec_conf.fan_mode.addr_bit.getD i addr_bit_zero).addr) }) := by
  intro n
  induction n with
  | zero => intro j found stored s _ _; simp [fan_mode_show.fields]
  | succ n ih =>
    intro j found stored s h hsz
    rw [fan_mode_show.fields, read_addr_bit_ok _ _ _ (hsz j (le_refl j) (by omega)) (h _)]
    simp only [lt_self_iff_false, if_false]
    rw [ih (j + 1) _ _ _ (reliable_with_log s h _) (fun i h1 h2 => hsz i (by omega) (by omega))]
    simp only [field_value_with_log, List.range'_succ, List.all_cons, List.map_cons,
      List.append_assoc, List.singleton_append]
    have e : j + 1 + n - 1 = j + (n + 1) - 1 := by omega
    by_cases hv : field_value (ec_conf.fan_mode.addr_bit.getD j addr_bit_zero) s = values.getD j 0
    · by_cases hn : n = 0
      · subst hn; cases found <;> simp [hv]
      · cases found <;> simp [hv, hn, e]
    · by_cases hn : n = 0
      · subst hn; cases found <;> simp [hv]
      · cases found <;> simp [hv, hn, e]

theorem fan_fields_ok (values : List Nat) (stored : Nat) (s : EC) (h : s.reliable) :
    fan_mode_show.fields AORUS5KE0 values GIGABYTE_EC_N_OF_ADDRESS 0 true stored s
      = (0, decide (fan_observed s = [values.getD 0 0, values.getD 1 0, values.getD 2 0,
            values.getD 3 0, values.getD 4 0, values.getD 5 0]),
          s.byte 0xB1, { s with log := s.log ++ fan_reads }) := by
  rw [fan_fields_reliable AORUS5KE0 values GIGABYTE_EC_N_OF_ADDRESS 0 true stored s h]
  · simp [GIGABYTE_EC_N_OF_ADDRESS, List.range', AORUS5KE0, fan_observed, observed, fan_reads,
      field_value]
  · intro i _ hi
    have hi6 : i < 6 := by simpa [GIGABYTE_EC_N_OF_ADDRESS] using hi
    interval_cases i <;> simp [AORUS5KE0]

theorem AORUS5KE0_fan_modes :
    AORUS5KE0.fan_mode.modes
      = [ ⟨some "normal", [0, 0, 0, 0, 0x39, 0x39]⟩, ⟨some "eco", [0, 1, 0, 0, 0x39, 0x39]⟩,
          ⟨some "power", [0, 0, 1, 0, 0x39, 0x39]⟩, ⟨some "turbo", [1, 0, 0, 1, 0xE5, 0xE5]⟩,
          ⟨none, [0, 0, 0, 0, 0, 0]⟩, ⟨none, [0, 0, 0, 0, 0, 0]⟩ ] := rfl

theorem fan_modes_step (name : String) (values : List Nat) (rest : List gigabyte_ec_mode)
    (stored : Nat) (s : EC) (h : s.reliable) :
    fan_mode_show.modes AORUS5KE0 (⟨some name, values⟩ :: rest) stored s
      = if fan_observed s = [values.getD 0 0, values.getD 1 0, values.getD 2 0,
            values.getD 3 0, values.getD 4 0, values.getD 5 0] then
          (((name ++ "\n").length : Int), name ++ "\n", { s with log := s.log ++ fan_reads })
        else
          fan_mode_show.modes AORUS5KE0 rest (s.byte 0xB1)
            { s with log := s.log ++ fan_reads } := by
  rw [fan_mode_show.modes]
  simp only []
  rw [fan_fields_ok _ _ _ h]
  simp only [lt_self_iff_false, if_false, sysfs_emit, decide_eq_true_eq]

theorem fan_modes_end (values : List Nat) (rest : List gigabyte_ec_mode)
    (stored : Nat) (s : EC) :
    fan_mode_show.modes AORUS5KE0 (⟨none, values⟩ :: rest) stored s
      = (8, "unknown\n", s) := by
  rw [fan_mode_show.modes]
  simp only [sysfs_emit]
  rfl

/-- On a transport that succeeds `fan_mode_show` is a first-match lookup of the
observed vector in the table. -/
theorem fan_show_ok (stored : Nat) (s : EC) (h : s.reliable) :
    (fan_mode_show true AORUS5KE0 stored s).2.1
      = if fan_observed s = [0, 0, 0, 0, 0x39, 0x39] then "normal\n"
        else if fan_observed s = [0, 1, 0, 0, 0x39, 0x39] then "eco\n"
        else if fan_observed s = [0, 0, 1, 0, 0x39, 0x39] then "power\n"
        else if fan_observed s = [1, 0, 0, 1, 0xE5, 0xE5] then "turbo\n"
        else "unknown\n" := by
  have e : ∀ l, fan_observed ({ s with log := l } : EC) = fan_observed s := fun _ => rfl
  have h1 := reliable_with_log s h
  simp only [fan_mode_show, Bool.not_true, Bool.false_eq_true, if_false]
  rw [AORUS5KE0_fan_modes, fan_modes_step _ _ _ _ _ h]
  simp only [List.getD_cons_zero, List.getD_cons_succ]
  split
  · rfl
  rw [fan_modes_step _ _ _ _ _ (h1 _)]
  simp only [List.getD_cons_zero, List.getD_cons_succ, e]
  split
  · rfl
  rw [fan_modes_step _ _ _ _ _ (h1 _)]
  simp only [List.getD_cons_zero, List.getD_cons_succ, e]
  split
  · rfl
  rw [fan_modes_step _ _ _ _ _ (h1 _)]
  simp only [List.getD_cons_zero, List.getD_cons_succ, e]
  split
  · rfl
  rw [fan_modes_end]

/-! ## The setters on a transport that succeeds -/

theorem write_addr_bit_reliable (loc : gigabyte_ec_addr_bit) (v : Nat) (s : EC) (h : s.reliable)
    (hsz : loc.size = 1 ∧ loc.bit < 8 ∨ loc.size = 8) :
    (write_addr_bit loc v s).1 = 0 ∧ (write_addr_bit loc v s).2.reliable ∧
    field_value loc (write_addr_bit loc v s).2 = written_value loc v ∧
    (∀ a, a ≠ loc.addr → (write_addr_bit loc v s).2.mem a = s.mem a) := by
  have hr : ∀ k, s.err k = 0 := h
  rcases hsz with ⟨h1, hb⟩ | h8
  · have hw : write_addr_bit loc v s = ec_set_bit loc.addr v loc.bit s := by
      simp [write_addr_bit, h1]
    rw [hw, ec_set_bit_ok _ _ _ _ (hr _) (hr _)]
    refine ⟨rfl, h, ?_, ?_⟩
    · by_cases hv : v > 0
      · simp [field_value, written_value, h1, EC.byte, hv, testBit_set, hb]
      · simp [field_value, written_value, h1, EC.byte, hv, testBit_clear, hb]
    · intro a ha
      simp [Function.update, ha]
  · have h1 : loc.size ≠ 1 := by omega
    have hw : write_addr_bit loc v s = ec_write loc.addr v s := by
      simp [write_addr_bit, h8]
    rw [hw, ec_write_ok _ _ _ (hr _)]
    refine ⟨rfl, h, ?_, ?_⟩
    · simp [field_value, written_value, h8, EC.byte]
    · intro a ha
      simp [Function.update, ha]

theorem field_value_frame (loc : gigabyte_ec_addr_bit) (s t : EC)
    (h : t.mem loc.addr = s.mem loc.addr) : field_value loc t = field_value loc s := by
  simp [field_value, EC.byte, h]

/-- Writing a vector of values to field locations at pairwise distinct addresses
over a transport that succeeds: every field ends up holding its value and no other
register changes. -/
theorem apply_mode_reliable :
    ∀ (fields : List gigabyte_ec_addr_bit) (values : List Nat) (s : EC), s.reliable →
      (∀ loc ∈ fields, loc.size = 1 ∧ loc.bit < 8 ∨ loc.size = 8) →
      fields.Pairwise (fun p q => p.addr ≠ q.addr) →
      (apply_mode fields values s).reliable ∧
      (∀ p ∈ fields.zip values, field_value p.1 (apply_mode fields values s) = written_value p.1 p.2) ∧
      (∀ a, (∀ loc ∈ fields, loc.addr ≠ a) → (apply_mode fields values s).mem a = s.mem a) := by
  intro fields
  induction fields with
  | nil => intro values s h _ _; simp [apply_mode, h]
  | cons loc rest ih =>
    intro values s h hsz hpw
    cases values with
    | nil => simp [apply_mode, h]
    | cons v vs =>
      obtain ⟨_, hrel, hval, hframe⟩ :=
        write_addr_bit_reliable loc v s h (hsz loc (List.mem_cons_self _ _))
      have hpw2 := List.pairwise_cons.mp hpw
      obtain ⟨irel, ival, iframe⟩ := ih vs (write_addr_bit loc v s).2 hrel
        (fun l hl => hsz l (List.mem_cons_of_mem _ hl)) hpw2.2
      have e : apply_mode (loc :: rest) (v :: vs) s
          = apply_mode rest vs (write_addr_bit loc v s).2 := by
        simp [apply_mode]
      rw [e]
      refine ⟨irel, ?_, ?_⟩
      · intro p hp
        rw [List.zip_cons_cons, List.mem_cons] at hp
        rcases hp with rfl | hp
        · rw [← hval]
          exact field_value_frame _ _ _ (iframe _ (fun l hl => (hpw2.1 l hl).symm))
        · exact ival p hp
      · intro a ha
        rw [iframe a (fun l hl => ha l (List.mem_cons_of_mem _ hl))]
        exact hframe a (fun e => ha loc (List.mem_cons_self _ _) e.symm)

theorem fan_mode_values (mode : Nat) :
    ∃ a b c d e f, (AORUS5KE0.fan_mode.modes.getD mode GIGABYTE_EC_MODE_NULL).value
      = [a, b, c, d, e, f] := by
  rcases Nat.lt_or_ge mode 6 with h | h
  · interval_cases mode <;> exact ⟨_, _, _, _, _, _, rfl⟩
  · rw [List.getD_eq_default _ _ (by simpa [AORUS5KE0] using h)]
    exact ⟨_, _, _, _, _, _, rfl⟩

/-- The loop of `gigabyte_change_fan_mode` is the field-by-field write sequence of
the specification. -/
theorem change_fan_mode_eq_apply (mode : Nat) (s : EC) :
    (gigabyte_change_fan_mode AORUS5KE0 mode s).2
      = apply_mode AORUS5KE0.fan_mode.addr_bit
          (AORUS5KE0.fan_mode.modes.getD mode GIGABYTE_EC_MODE_NULL).value s := by
  obtain ⟨a, b, c, d, e, f, hv⟩ := fan_mode_values mode
  simp only [gigabyte_change_fan_mode, GIGABYTE_EC_N_OF_ADDRESS, gigabyte_change_fan_mode.loop,
    hv]
  rfl

theorem charging_mode_values (mode : Nat) :
    ∃ a b c d e f, (AORUS5KE0.charging_mode.modes.getD mode GIGABYTE_EC_MODE_NULL).value
      = [a, b, c, d, e, f] := by
  rcases Nat.lt_or_ge mode 3 with h | h
  · interval_cases mode <;> exact ⟨_, _, _, _, _, _, rfl⟩
  · rw [List.getD_eq_default _ _ (by simpa [AORUS5KE0] using h)]
    exact ⟨_, _, _, _, _, _, rfl⟩

/-- The loop of `gigabyte_change_charging_mode` is the field-by-field write
sequence of the specification. -/
theorem change_charging_mode_eq_apply (mode : Nat) (s : EC) :
    (gigabyte_change_charging_mode AORUS5KE0 mode s).2
      = apply_mode AORUS5KE0.charging_mode.addr_bit
          (AORUS5KE0.charging_mode.modes.getD mode GIGABYTE_EC_MODE_NULL).value s := by
  obtain ⟨a, b, c, d, e, f, hv⟩ := charging_mode_values mode
  simp only [gigabyte_change_charging_mode, gigabyte_change_charging_mode.loop, hv]
  rfl

theorem AORUS5KE0_charging_modes :
    AORUS5KE0.charging_mode.modes
      = [ ⟨some "standard", [0, 0x61, 0, 0, 0, 0]⟩, ⟨some "custom", [1, 0x3C, 0, 0, 0, 0]⟩,
          ⟨none, [0, 0, 0, 0, 0, 0]⟩ ] := rfl

theorem charging_modes_step (name : String) (values : List Nat)
    (rest : List gigabyte_ec_mode) (stored : Nat) (s : EC) (h : s.reliable) :
    charging_mode_show.modes AORUS5KE0 (⟨some name, values⟩ :: rest) stored s
      = if ((s.byte 0x0F).testBit 2).toNat = values.getD 0 0 then
          (((name ++ "\n").length : Int), name ++ "\n",
            { s with log := s.log ++ [ec_access.read 0x0F] })
        else
          charging_mode_show.modes AORUS5KE0 rest (((s.byte 0x0F).testBit 2).toNat)
            { s with log := s.log ++ [ec_access.read 0x0F] } := by
  have hr : ∀ k, s.err k = 0 := h
  rw [charging_mode_show.modes]
  simp only []
  rw [read_addr_bit_ok _ _ _ (Or.inl rfl) (hr _)]
  have e : field_value (AORUS5KE0.charging_mode.addr_bit.getD 0 addr_bit_zero) s
      = ((s.byte 0x0F).testBit 2).toNat := rfl
  have e2 : (AORUS5KE0.charging_mode.addr_bit.getD 0 addr_bit_zero).addr = 0x0F := rfl
  rw [e, e2]
  by_cases c : ((s.byte 0x0F).testBit 2).toNat = values.getD 0 0
  · simp [c, sysfs_emit]
  · simp [c, sysfs_emit]

/-- On a transport that succeeds `charging_mode_show` reports bit 2 of the byte at
0x0F and nothing else. -/
theorem charging_show_ok (stored : Nat) (s : EC) (h : s.reliable) :
    (charging_mode_show true AORUS5KE0 stored s).2.1
      = if (s.byte 0x0F).testBit 2 then "custom\n" else "standard\n" := by
  have h1 := reliable_with_log s h
  have e : ∀ l, ({ s with log := l } : EC).byte 0x0F = s.byte 0x0F := fun _ => rfl
  simp only [charging_mode_show, Bool.not_true, Bool.false_eq_true, if_false]
  rw [AORUS5KE0_charging_modes, charging_modes_step _ _ _ _ _ h]
  simp only [List.getD_cons_zero]
  cases hb : (s.byte 0x0F).testBit 2
  · simp
  · rw [charging_modes_step _ _ _ _ _ (h1 _)]
    simp [e, hb]

/-! ## Claims -/

/-- C1. Round trip: on an EC whose accesses all succeed, applying a named mode of
the profile (by its index) and then reading the current mode emits the name of
that mode followed by a newline, for the fan family and for the charging family. -/
theorem round_trip (s : EC) (stored : Nat) (h : s.reliable) :
    (∀ m name, (AORUS5KE0.fan_mode.modes.getD m GIGABYTE_EC_MODE_NULL).name = some name →
      (fan_mode_show true AORUS5KE0 stored (gigabyte_change_fan_mode AORUS5KE0 m s).2).2.1
        = name ++ "\n") ∧
    (∀ m name, (AORUS5KE0.charging_mode.modes.getD m GIGABYTE_EC_MODE_NULL).name = some name →
      (charging_mode_show true AORUS5KE0 stored
          (gigabyte_change_charging_mode AORUS5KE0 m s).2).2.1
        = name ++ "\n") := by
  constructor
  · intro m name hm
    obtain ⟨hrel, hval, -⟩ := apply_mode_reliable AORUS5KE0.fan_mode.addr_bit
      (AORUS5KE0.fan_mode.modes.getD m GIGABYTE_EC_MODE_NULL).value s h
      (by decide) (by decide)
    rw [change_fan_mode_eq_apply, fan_show_ok _ _ hrel]
    have hobs : fan_observed (apply_mode AORUS5KE0.fan_mode.addr_bit
        (AORUS5KE0.fan_mode.modes.getD m GIGABYTE_EC_MODE_NULL).value s)
        = (AORUS5KE0.fan_mode.addr_bit.zip
            (AORUS5KE0.fan_mode.modes.getD m GIGABYTE_EC_MODE_NULL).value).map
            (fun p => written_value p.1 p.2) := by
      obtain ⟨a, b, c, d, e, f, hv⟩ := fan_mode_values m
      rw [hv] at hval ⊢
      simp only [fan_observed, observed, AORUS5KE0, List.zip_cons_cons, List.map_cons,
        List.zip_nil_right, List.map_nil, List.mem_cons, forall_eq_or_imp] at hval ⊢
      simp [hval]
    rw [hobs]
    rcases Nat.lt_or_ge m 4 with h4 | h4
    · interval_cases m <;> cases hm <;> decide
    · exfalso
      rcases Nat.lt_or_ge m 6 with h6 | h6
      · interval_cases m <;> cases hm
      · rw [List.getD_eq_default _ _ (by simpa [AORUS5KE0] using h6)] at hm
        cases hm
  · intro m name hm
    obtain ⟨hrel, hval, -⟩ := apply_mode_reliable AORUS5KE0.charging_mode.addr_bit
      (AORUS5KE0.charging_mode.modes.getD m GIGABYTE_EC_MODE_NULL).value s h
      (by decide) (by decide)
    rw [change_charging_mode_eq_apply, charging_show_ok _ _ hrel]
    obtain ⟨a, b, c, d, e, f, hv⟩ := charging_mode_values m
    have hbit : (((apply_mode AORUS5KE0.charging_mode.addr_bit
        (AORUS5KE0.charging_mode.modes.getD m GIGABYTE_EC_MODE_NULL).value s).byte 0x0F).testBit
          2).toNat = if a > 0 then 1 else 0 := by
      rw [hv] at hval ⊢
      exact hval (⟨0x0F, 1, 2⟩, a) (by simp [AORUS5KE0])
    rcases Nat.lt_or_ge m 2 with h2 | h2
    · interval_cases m
      · cases hm
        cases hv
        cases hb : ((apply_mode AORUS5KE0.charging_mode.addr_bit
          (AORUS5KE0.charging_mode.modes.getD 0 GIGABYTE_EC_MODE_NULL).value s).byte 0x0F).testBit 2
        · decide
        · rw [hb] at hbit; simp at hbit
      · cases hm
        cases hv
        cases hb : ((apply_mode AORUS5KE0.charging_mode.addr_bit
          (AORUS5KE0.charging_mode.modes.getD 1 GIGABYTE_EC_MODE_NULL).value s).byte 0x0F).testBit 2
        · rw [hb] at hbit; simp at hbit
        · decide
    · exfalso
      rcases Nat.lt_or_ge m 3 with h3 | h3
      · interval_cases m; cases hm
      · rw [List.getD_eq_default _ _ (by simpa [AORUS5KE0] using h3)] at hm
        cases hm

/-- Witness for C1: from the all-zero EC, turbo and custom are read back. -/
theorem round_trip_witness :
    (fan_mode_show true AORUS5KE0 0 (gigabyte_change_fan_mode AORUS5KE0 3 ec_zero).2).2.1
      = "turbo" ++ "
" ∧
    (charging_mode_show true AORUS5KE0 0
        (gigabyte_change_charging_mode AORUS5KE0 1 ec_zero).2).2.1 = "custom" ++ "
" :=
  ⟨(round_trip ec_zero 0 (fun _ => rfl)).1 3 "turbo" rfl,
   (round_trip ec_zero 0 (fun _ => rfl)).2 1 "custom" rfl⟩

theorem forall_lt_one (P : Nat → Prop) : (∀ j, j < 1 → P j) ↔ P 0 :=
  ⟨fun hp => hp 0 (by omega), fun h0 j hj => by interval_cases j; exact h0⟩

theorem forall_lt_two (P : Nat → Prop) : (∀ j, j < 2 → P j) ↔ P 0 ∧ P 1 :=
  ⟨fun hp => ⟨hp 0 (by omega), hp 1 (by omega)⟩,
   fun h0 j hj => by interval_cases j; exacts [h0.1, h0.2]⟩

theorem forall_lt_three (P : Nat → Prop) : (∀ j, j < 3 → P j) ↔ P 0 ∧ P 1 ∧ P 2 :=
  ⟨fun hp => ⟨hp 0 (by omega), hp 1 (by omega), hp 2 (by omega)⟩,
   fun h0 j hj => by interval_cases j; exacts [h0.1, h0.2.1, h0.2.2]⟩

theorem fan_named_lt (i : Nat) (name : String)
    (hm : (AORUS5KE0.fan_mode.modes.getD i GIGABYTE_EC_MODE_NULL).name = some name) : i < 4 := by
  by_contra h4
  rcases Nat.lt_or_ge i 6 with h6 | h6
  · have h4 : 4 ≤ i := by omega
    interval_cases i <;> cases hm
  · rw [List.getD_eq_default _ _ (by simpa [AORUS5KE0] using h6)] at hm
    cases hm

theorem fan_value_0 :
    (AORUS5KE0.fan_mode.modes.getD 0 GIGABYTE_EC_MODE_NULL).value = [0, 0, 0, 0, 0x39, 0x39] :=
  rfl

theorem fan_value_1 :
    (AORUS5KE0.fan_mode.modes.getD 1 GIGABYTE_EC_MODE_NULL).value = [0, 1, 0, 0, 0x39, 0x39] :=
  rfl

theorem fan_value_2 :
    (AORUS5KE0.fan_mode.modes.getD 2 GIGABYTE_EC_MODE_NULL).value = [0, 0, 1, 0, 0x39, 0x39] :=
  rfl

theorem fan_value_3 :
    (AORUS5KE0.fan_mode.modes.getD 3 GIGABYTE_EC_MODE_NULL).value = [1, 0, 0, 1, 0xE5, 0xE5] :=
  rfl

theorem fan_lookup_spec (o : List Nat) (out : String)
    (hout : out = if o = [0, 0, 0, 0, 0x39, 0x39] then "normal\n"
        else if o = [0, 1, 0, 0, 0x39, 0x39] then "eco\n"
        else if o = [0, 0, 1, 0, 0x39, 0x39] then "power\n"
        else if o = [1, 0, 0, 1, 0xE5, 0xE5] then "turbo\n"
        else "unknown\n") :
    (out = "normal\n" ↔ [0, 0, 0, 0, 0x39, 0x39] = o) ∧
    (out = "eco\n" ↔ [0, 1, 0, 0, 0x39, 0x39] = o ∧ [0, 0, 0, 0, 0x39, 0x39] ≠ o) ∧
    (out = "power\n" ↔ [0, 0, 1, 0, 0x39, 0x39] = o ∧ [0, 0, 0, 0, 0x39, 0x39] ≠ o ∧
      [0, 1, 0, 0, 0x39, 0x39] ≠ o) ∧
    (out = "turbo\n" ↔ [1, 0, 0, 1, 0xE5, 0xE5] = o ∧ [0, 0, 0, 0, 0x39, 0x39] ≠ o ∧
      [0, 1, 0, 0, 0x39, 0x39] ≠ o ∧ [0, 0, 1, 0, 0x39, 0x39] ≠ o) ∧
    (out = "unknown\n" ↔ [0, 0, 0, 0, 0x39, 0x39] ≠ o ∧ [0, 1, 0, 0, 0x39, 0x39] ≠ o ∧
      [0, 0, 1, 0, 0x39, 0x39] ≠ o ∧ [1, 0, 0, 1, 0xE5, 0xE5] ≠ o) := by
  subst hout
  by_cases c0 : o = [0, 0, 0, 0, 0x39, 0x39]
  · subst c0; decide
  by_cases c1 : o = [0, 1, 0, 0, 0x39, 0x39]
  · subst c1; decide
  by_cases c2 : o = [0, 0, 1, 0, 0x39, 0x39]
  · subst c2; decide
  by_cases c3 : o = [1, 0, 0, 1, 0xE5, 0xE5]
  · subst c3; decide
  have d0 : ¬ [0, 0, 0, 0, 0x39, 0x39] = o := fun e => c0 e.symm
  have d1 : ¬ [0, 1, 0, 0, 0x39, 0x39] = o := fun e => c1 e.symm
  have d2 : ¬ [0, 0, 1, 0, 0x39, 0x39] = o := fun e => c2 e.symm
  have d3 : ¬ [1, 0, 0, 1, 0xE5, 0xE5] = o := fun e => c3 e.symm
  simp only [if_neg c0, if_neg c1, if_neg c2, if_neg c3]
  refine ⟨⟨fun e => absurd e (by decide), fun e => absurd e d0⟩,
    ⟨fun e => absurd e (by decide), fun e => absurd e.1 d1⟩,
    ⟨fun e => absurd e (by decide), fun e => absurd e.1 d2⟩,
    ⟨fun e => absurd e (by decide), fun e => absurd e.1 d3⟩,
    ⟨fun _ => ⟨d0, d1, d2, d3⟩, fun _ => trivial⟩⟩

/-- C3. Fan matcher correctness: with the profile loaded and every EC read
succeeding, `fan_mode_show` emits the name of mode `i` followed by a newline
exactly when `i` is the first index whose six expected values equal the six
observed field values, and emits "unknown" followed by a newline exactly when no
named mode has all six equal. -/
theorem fan_matcher_correct (s : EC) (stored : Nat) (h : s.reliable) :
    (∀ i name, (AORUS5KE0.fan_mode.modes.getD i GIGABYTE_EC_MODE_NULL).name = some name →
      ((fan_mode_show true AORUS5KE0 stored s).2.1 = name ++ "\n" ↔
        ((AORUS5KE0.fan_mode.modes.getD i GIGABYTE_EC_MODE_NULL).value = fan_observed s ∧
          ∀ j, j < i →
            (AORUS5KE0.fan_mode.modes.getD j GIGABYTE_EC_MODE_NULL).value ≠ fan_observed s))) ∧
    ((fan_mode_show true AORUS5KE0 stored s).2.1 = "unknown\n" ↔
      ∀ i name, (AORUS5KE0.fan_mode.modes.getD i GIGABYTE_EC_MODE_NULL).name = some name →
        (AORUS5KE0.fan_mode.modes.getD i GIGABYTE_EC_MODE_NULL).value ≠ fan_observed s) := by
  obtain ⟨l0, l1, l2, l3, lu⟩ := fan_lookup_spec (fan_observed s) _ (fan_show_ok stored s h)
  have n0 : (AORUS5KE0.fan_mode.modes.getD 0 GIGABYTE_EC_MODE_NULL).name = some "normal" := rfl
  have n1 : (AORUS5KE0.fan_mode.modes.getD 1 GIGABYTE_EC_MODE_NULL).name = some "eco" := rfl
  have n2 : (AORUS5KE0.fan_mode.modes.getD 2 GIGABYTE_EC_MODE_NULL).name = some "power" := rfl
  have n3 : (AORUS5KE0.fan_mode.modes.getD 3 GIGABYTE_EC_MODE_NULL).name = some "turbo" := rfl
  constructor
  · intro i name hm
    have h4 := fan_named_lt i name hm
    interval_cases i
    · rw [n0] at hm; cases hm
      rw [fan_value_0]
      exact l0.trans ⟨fun e => ⟨e, fun j hj => absurd hj (by omega)⟩, fun e => e.1⟩
    · rw [n1] at hm; cases hm
      rw [forall_lt_one, fan_value_0, fan_value_1]
      exact l1
    · rw [n2] at hm; cases hm
      rw [forall_lt_two, fan_value_0, fan_value_1, fan_value_2]
      exact l2
    · rw [n3] at hm; cases hm
      rw [forall_lt_three, fan_value_0, fan_value_1, fan_value_2, fan_value_3]
      exact l3
  · rw [lu]
    constructor
    · intro hall i name hm
      have h4 := fan_named_lt i name hm
      interval_cases i
      · rw [fan_value_0]; exact hall.1
      · rw [fan_value_1]; exact hall.2.1
      · rw [fan_value_2]; exact hall.2.2.1
      · rw [fan_value_3]; exact hall.2.2.2
    · intro hall
      exact ⟨hall 0 _ n0, hall 1 _ n1, hall 2 _ n2, hall 3 _ n3⟩

/-- Witness for C3: the all-zero register file matches no fan mode and reads as
"unknown"; the turbo register file reads as "turbo", the first and only match. -/
theorem fan_matcher_correct_witness :
    (fan_mode_show true AORUS5KE0 0 ec_zero).2.1 = "unknown\n" ∧
    (fan_mode_show true AORUS5KE0 0 ec_turbo).2.1 = "turbo" ++ "\n" :=
  ⟨(fan_matcher_correct ec_zero 0 (fun _ => rfl)).2.mpr (fun i name hm => by
      have h4 := fan_named_lt i name hm
      interval_cases i <;> decide),
   ((fan_matcher_correct ec_turbo 0 (fun _ => rfl)).1 3 "turbo" rfl).mpr
      ⟨by decide, fun j hj => by interval_cases j <;> decide⟩⟩

theorem charging_named_lt (i : Nat) (name : String)
    (hm : (AORUS5KE0.charging_mode.modes.getD i GIGABYTE_EC_MODE_NULL).name = some name) :
    i < 2 := by
  by_contra h2
  rcases Nat.lt_or_ge i 3 with h3 | h3
  · have h2 : 2 ≤ i := by omega
    interval_cases i; cases hm
  · rw [List.getD_eq_default _ _ (by simpa [AORUS5KE0] using h3)] at hm
    cases hm

theorem differs_ne (n : Nat) (obs vals : List Nat) (h : differs_in_exactly_one n obs vals) :
    vals ≠ obs := by
  obtain ⟨k, _, hk, _⟩ := h
  intro e
  exact hk (by rw [e])

/-- A name emitted by `fan_mode_show` belongs to a mode whose vector is the
observed one. -/
theorem fan_show_name_imp (s : EC) (stored : Nat) (h : s.reliable) (i : Nat) (name : String)
    (hm : (AORUS5KE0.fan_mode.modes.getD i GIGABYTE_EC_MODE_NULL).name = some name)
    (hout : (fan_mode_show true AORUS5KE0 stored s).2.1 = name ++ "\n") :
    (AORUS5KE0.fan_mode.modes.getD i GIGABYTE_EC_MODE_NULL).value = fan_observed s := by
  obtain ⟨l0, l1, l2, l3, -⟩ := fan_lookup_spec (fan_observed s) _ (fan_show_ok stored s h)
  have h4 := fan_named_lt i name hm
  interval_cases i <;> cases hm
  · exact l0.mp hout
  · exact (l1.mp hout).1
  · exact (l2.mp hout).1
  · exact (l3.mp hout).1

theorem charging_observed_zero (s : EC) :
    (charging_observed s).getD 0 0 = ((s.byte 0x0F).testBit 2).toNat := rfl

/-- C4, amended. Exact match: with reads succeeding, a state that equals a named
fan mode X in all six fields except exactly one is not reported as X by
`fan_mode_show`. For the charging family only the first field decides: a state
whose bit 2 of 0x0F differs from the first value of X is not reported as X by
`charging_mode_show`, and a state whose bit 2 of 0x0F equals the first value of X
is reported as X whatever byte 0xA9 holds. -/
theorem exact_match_required (s : EC) (stored : Nat) (h : s.reliable) :
    (∀ i name, (AORUS5KE0.fan_mode.modes.getD i GIGABYTE_EC_MODE_NULL).name = some name →
      differs_in_exactly_one 6 (fan_observed s)
        (AORUS5KE0.fan_mode.modes.getD i GIGABYTE_EC_MODE_NULL).value →
      (fan_mode_show true AORUS5KE0 stored s).2.1 ≠ name ++ "\n") ∧
    (∀ i name, (AORUS5KE0.charging_mode.modes.getD i GIGABYTE_EC_MODE_NULL).name = some name →
      (charging_observed s).getD 0 0
        ≠ (AORUS5KE0.charging_mode.modes.getD i GIGABYTE_EC_MODE_NULL).value.getD 0 0 →
      (charging_mode_show true AORUS5KE0 stored s).2.1 ≠ name ++ "\n") ∧
    (∀ i name, (AORUS5KE0.charging_mode.modes.getD i GIGABYTE_EC_MODE_NULL).name = some name →
      (charging_observed s).getD 0 0
        = (AORUS5KE0.charging_mode.modes.getD i GIGABYTE_EC_MODE_NULL).value.getD 0 0 →
      (charging_mode_show true AORUS5KE0 stored s).2.1 = name ++ "\n") := by
  refine ⟨?_, ?_, ?_⟩
  · intro i name hm hd hout
    exact differs_ne _ _ _ hd (fan_show_name_imp s stored h i name hm hout)
  · intro i name hm hd
    have h2 := charging_named_lt i name hm
    rw [charging_show_ok _ _ h]
    rw [charging_observed_zero] at hd
    interval_cases i <;> cases hm
    · cases hb : (s.byte 0x0F).testBit 2
      · rw [hb] at hd; exact absurd rfl hd
      · decide
    · cases hb : (s.byte 0x0F).testBit 2
      · decide
      · rw [hb] at hd; exact absurd rfl hd
  · intro i name hm hd
    have h2 := charging_named_lt i name hm
    rw [charging_show_ok _ _ h]
    rw [charging_observed_zero] at hd
    interval_cases i <;> cases hm
    · cases hb : (s.byte 0x0F).testBit 2
      · rfl
      · rw [hb] at hd; cases hd
    · cases hb : (s.byte 0x0F).testBit 2
      · rw [hb] at hd; cases hd
      · rfl

/-- Witness for C4, amended: a register file with byte 0xB0 = 0x39 and zeros
elsewhere equals "normal" in every field except byte 0xB1, and is not reported as
"normal". -/
theorem exact_match_required_witness :
    (fan_mode_show true AORUS5KE0 0 ⟨fun a => if a = 0xB0 then 0x39 else 0, fun _ => 0, []⟩).2.1
      ≠ "normal" ++ "\n" :=
  (exact_match_required ⟨fun a => if a = 0xB0 then 0x39 else 0, fun _ => 0, []⟩ 0
    (fun _ => rfl)).1 0 "normal" rfl ⟨5, by decide, by decide, by decide⟩

/-- C4 as stated fails for the charging family: the state has bit 2 of 0x0F = 0
and byte 0xA9 = 0x3C, so it equals "standard" (0, 0x61) in all fields except
exactly one, and `charging_mode_show` reports "standard". -/
theorem exact_match_counterexample :
    ec_custom_threshold.reliable ∧
    (AORUS5KE0.charging_mode.modes.getD 0 GIGABYTE_EC_MODE_NULL).name = some "standard" ∧
    differs_in_exactly_one 2 (charging_observed ec_custom_threshold)
      (AORUS5KE0.charging_mode.modes.getD 0 GIGABYTE_EC_MODE_NULL).value ∧
    (charging_mode_show true AORUS5KE0 0 ec_custom_threshold).2.1 = "standard" ++ "\n" :=
  ⟨fun _ => rfl, rfl, ⟨1, by decide, by decide, by decide⟩, by decide⟩

/-- C5, amended. Unknown detection: with reads succeeding, a state whose six fan
field values equal the vector of no named fan mode makes `fan_mode_show` emit
"unknown" and a newline. `charging_mode_show` compares the first field only: it
emits "standard" when bit 2 of 0x0F is 0 and "custom" when it is 1, whatever byte
0xA9 holds, and so emits neither "unknown" nor "error". -/
theorem unknown_detection (s : EC) (stored : Nat) (h : s.reliable) :
    ((∀ i name, (AORUS5KE0.fan_mode.modes.getD i GIGABYTE_EC_MODE_NULL).name = some name →
        (AORUS5KE0.fan_mode.modes.getD i GIGABYTE_EC_MODE_NULL).value ≠ fan_observed s) →
      (fan_mode_show true AORUS5KE0 stored s).2.1 = "unknown\n") ∧
    (charging_mode_show true AORUS5KE0 stored s).2.1
      = (if (charging_observed s).getD 0 0 = 0 then "standard\n" else "custom\n") ∧
    (charging_mode_show true AORUS5KE0 stored s).2.1 ≠ "unknown\n" ∧
    (charging_mode_show true AORUS5KE0 stored s).2.1 ≠ "error\n" := by
  have hc := charging_show_ok stored s h
  refine ⟨?_, ?_, ?_, ?_⟩
  · intro hall
    obtain ⟨-, -, -, -, lu⟩ := fan_lookup_spec (fan_observed s) _ (fan_show_ok stored s h)
    exact lu.mpr ⟨hall 0 "normal" rfl, hall 1 "eco" rfl, hall 2 "power" rfl, hall 3 "turbo" rfl⟩
  · rw [hc, charging_observed_zero]
    cases (s.byte 0x0F).testBit 2 <;> rfl
  · rw [hc]
    cases (s.byte 0x0F).testBit 2 <;> decide
  · rw [hc]
    cases (s.byte 0x0F).testBit 2 <;> decide

/-- Witness for C5, amended: the all-zero register file is an unknown fan state and
a "standard" charging state. -/
theorem unknown_detection_witness :
    (fan_mode_show true AORUS5KE0 0 ec_zero).2.1 = "unknown\n" ∧
    (charging_mode_show true AORUS5KE0 0 ec_zero).2.1
      = (if (charging_observed ec_zero).getD 0 0 = 0 then "standard\n" else "custom\n") :=
  ⟨(unknown_detection ec_zero 0 (fun _ => rfl)).1 (fun i name hm => by
      have h4 := fan_named_lt i name hm
      interval_cases i <;> decide),
   (unknown_detection ec_zero 0 (fun _ => rfl)).2.1⟩

/-- C5 as stated fails for the charging family: in the all-zero register file the
charging fields read (0, 0), which is the vector of neither "standard" (0, 0x61)
nor "custom" (1, 0x3C), and `charging_mode_show` emits "standard", not
"unknown". -/
theorem unknown_detection_counterexample :
    ec_zero.reliable ∧
    charging_observed ec_zero = [0, 0] ∧
    (AORUS5KE0.charging_mode.modes.getD 0 GIGABYTE_EC_MODE_NULL).value.take 2 = [0, 0x61] ∧
    (AORUS5KE0.charging_mode.modes.getD 1 GIGABYTE_EC_MODE_NULL).value.take 2 = [1, 0x3C] ∧
    (AORUS5KE0.charging_mode.modes.getD 2 GIGABYTE_EC_MODE_NULL).name = none ∧
    (charging_mode_show true AORUS5KE0 0 ec_zero).2.1 = "standard\n" ∧
    (charging_mode_show true AORUS5KE0 0 ec_zero).2.1 ≠ "unknown\n" :=
  ⟨fun _ => rfl, by decide, rfl, rfl, rfl, by decide, by decide⟩

/-! ## Matcher runs on an arbitrary transport -/

theorem reads_refl (s : EC) : reads_until_failure s s false :=
  ⟨rfl, rfl, ⟨[], by simp, by simp⟩, fun k h1 h2 => by omega,
    fun hf => (by cases hf), fun _ k h1 h2 => by omega⟩

theorem reads_trans (s t u : EC) (f : Bool) (h1 : reads_until_failure s t false)
    (h2 : reads_until_failure t u f) : reads_until_failure s u f := by
  obtain ⟨m1, e1, ⟨ops1, l1, r1⟩, -, -, ok1⟩ := h1
  obtain ⟨m2, e2, ⟨ops2, l2, r2⟩, pre2, fl2, ok2⟩ := h2
  have hlen : s.log.length ≤ t.log.length := by rw [l1]; simp
  refine ⟨m2.trans m1, e2.trans e1, ⟨ops1 ++ ops2, by rw [l2, l1, List.append_assoc], ?_⟩,
    ?_, ?_, ?_⟩
  · intro o ho
    rcases List.mem_append.mp ho with ho | ho
    · exact r1 o ho
    · exact r2 o ho
  · intro k hk1 hk2
    rcases Nat.lt_or_ge k t.log.length with hlt | hge
    · exact ok1 rfl k hk1 hlt
    · rw [← e1]; exact pre2 k hge hk2
  · intro hf
    obtain ⟨a, b⟩ := fl2 hf
    exact ⟨by omega, by rw [← e1]; exact b⟩
  · intro hf k hk1 hk2
    rcases Nat.lt_or_ge k t.log.length with hlt | hge
    · exact ok1 rfl k hk1 hlt
    · rw [← e1]; exact ok2 hf k hge hk2

theorem ec_read_run (addr val : Nat) (s : EC) :
    reads_until_failure s (ec_read addr val s).2.2 (decide ((ec_read addr val s).1 < 0)) := by
  by_cases h : s.err s.log.length = 0
  · rw [ec_read_ok _ _ _ h]
    refine ⟨rfl, rfl, ⟨[ec_access.read addr], rfl, by simp⟩, ?_, ?_, ?_⟩
    · intro k h1 h2; simp at h2; omega
    · intro hf; simp at hf
    · intro _ k h1 h2
      simp at h2
      have : k = s.log.length := by omega
      rw [this]; exact h
  · have hpos : 0 < s.err s.log.length := Nat.pos_of_ne_zero h
    simp only [ec_read, h, if_false]
    refine ⟨rfl, rfl, ⟨[ec_access.read addr], rfl, by simp⟩, ?_, ?_, ?_⟩
    · intro k h1 h2; simp at h2; omega
    · intro _; simpa using h
    · intro hf
      exfalso
      simp at hf
      omega

theorem read_addr_bit_run (loc : gigabyte_ec_addr_bit) (value : Nat) (s : EC) :
    reads_until_failure s (read_addr_bit loc value s).2.2
      (decide ((read_addr_bit loc value s).1 < 0)) := by
  by_cases h1 : loc.size = 1
  · have e : (read_addr_bit loc value s).2.2 = (ec_read loc.addr 0 s).2.2 ∧
        (read_addr_bit loc value s).1 = (ec_read loc.addr 0 s).1 := by
      simp only [read_addr_bit, h1, if_true, ec_get_bit]
      split <;> simp
    rw [e.1, e.2]
    exact ec_read_run _ _ _
  · by_cases h8 : loc.size = 8
    · have e : read_addr_bit loc value s = ec_read loc.addr value s := by
        simp [read_addr_bit, h1, h8]
      rw [e]
      exact ec_read_run _ _ _
    · have e : read_addr_bit loc value s = (0, value, s) := by
        simp [read_addr_bit, h1, h8]
      rw [e]
      exact reads_refl s

theorem fan_fields_run (ec_conf : gigabyte_ec_conf) (values : List Nat) :
    ∀ (n j : Nat) (found : Bool) (stored : Nat) (s : EC),
      reads_until_failure s (fan_mode_show.fields ec_conf values n j found stored s).2.2.2
        (decide ((fan_mode_show.fields ec_conf values n j found stored s).1 < 0)) := by
  intro n
  induction n with
  | zero => intro j found stored s; simpa [fan_mode_show.fields] using reads_refl s
  | succ n ih =>
    intro j found stored s
    have hr := read_addr_bit_run (ec_conf.fan_mode.addr_bit.getD j addr_bit_zero) stored s
    rw [fan_mode_show.fields]
    generalize read_addr_bit (ec_conf.fan_mode.addr_bit.getD j addr_bit_zero) stored s = r at hr ⊢
    obtain ⟨res, st1, s1⟩ := r
    simp only [] at hr ⊢
    by_cases hneg : res < 0
    · simp only [hneg, if_true, decide_True] at hr ⊢
      exact hr
    · simp only [hneg, if_false, decide_False] at hr ⊢
      exact reads_trans _ _ _ _ hr (ih _ _ _ _)

theorem fan_modes_run (ec_conf : gigabyte_ec_conf) :
    ∀ (modes : List gigabyte_ec_mode) (stored : Nat) (s : EC),
      (∀ m ∈ modes, ∀ name, m.name = some name → name ++ "\n" ≠ "error\n") →
      reads_until_failure s (fan_mode_show.modes ec_conf modes stored s).2.2
        (decide ((fan_mode_show.modes ec_conf modes stored s).2.1 = "error\n")) := by
  have hu : decide ("unknown\n" = "error\n") = false := by decide
  intro modes
  induction modes with
  | nil =>
    intro stored s _
    rw [fan_mode_show.modes]
    simp only [sysfs_emit, hu]
    exact reads_refl s
  | cons m rest ih =>
    intro stored s hn
    rw [fan_mode_show.modes]
    cases hname : m.name with
    | none =>
      simp only [sysfs_emit, hu]
      exact reads_refl s
    | some name =>
      have hne := hn m (List.mem_cons_self _ _) name hname
      have hr := fan_fields_run ec_conf m.value GIGABYTE_EC_N_OF_ADDRESS 0 true stored s
      simp only []
      generalize fan_mode_show.fields ec_conf m.value GIGABYTE_EC_N_OF_ADDRESS 0 true stored s
        = r at hr ⊢
      obtain ⟨res, found, st1, s1⟩ := r
      simp only [] at hr ⊢
      by_cases hneg : res < 0
      · simp only [hneg, if_true, decide_True, sysfs_emit] at hr ⊢
        exact hr
      · simp only [hneg, if_false, decide_False] at hr ⊢
        cases found with
        | true =>
          simp only [if_true, sysfs_emit, hne, decide_False]
          exact hr
        | false =>
          simp only [Bool.false_eq_true, if_false]
          exact reads_trans _ _ _ _ hr
            (ih st1 s1 (fun m2 hm2 => hn m2 (List.mem_cons_of_mem _ hm2)))

theorem charging_modes_run (ec_conf : gigabyte_ec_conf) :
    ∀ (modes : List gigabyte_ec_mode) (stored : Nat) (s : EC),
      (∀ m ∈ modes, ∀ name, m.name = some name → name ++ "\n" ≠ "error\n") →
      reads_until_failure s (charging_mode_show.modes ec_conf modes stored s).2.2
        (decide ((charging_mode_show.modes ec_conf modes stored s).2.1 = "error\n")) := by
  have hu : decide ("unknown\n" = "error\n") = false := by decide
  intro modes
  induction modes with
  | nil =>
    intro stored s _
    rw [charging_mode_show.modes]
    simp only [sysfs_emit, hu]
    exact reads_refl s
  | cons m rest ih =>
    intro stored s hn
    rw [charging_mode_show.modes]
    cases hname : m.name with
    | none =>
      simp only [sysfs_emit, hu]
      exact reads_refl s
    | some name =>
      have hne := hn m (List.mem_cons_self _ _) name hname
      have hr := read_addr_bit_run (ec_conf.charging_mode.addr_bit.getD 0 addr_bit_zero) stored s
      simp only []
      generalize read_addr_bit (ec_conf.charging_mode.addr_bit.getD 0 addr_bit_zero) stored s
        = r at hr ⊢
      obtain ⟨res, st1, s1⟩ := r
      simp only [] at hr ⊢
      by_cases hneg : res < 0
      · simp only [hneg, if_true, decide_True, sysfs_emit] at hr ⊢
        exact hr
      · simp only [hneg, if_false, decide_False] at hr ⊢
        by_cases hv : st1 = m.value.getD 0 0
        · simp only [hv, ne_eq, not_true_eq_false, if_false, if_true, sysfs_emit, hne,
            decide_False]
          exact hr
        · simp only [hv, ne_eq, not_false_eq_true, if_true, Bool.false_eq_true, if_false]
          exact reads_trans _ _ _ _ hr
            (ih st1 s1 (fun m2 hm2 => hn m2 (List.mem_cons_of_mem _ hm2)))

theorem AORUS5KE0_names_not_error :
    (∀ m ∈ AORUS5KE0.fan_mode.modes, ∀ name, m.name = some name → name ++ "\n" ≠ "error\n") ∧
    (∀ m ∈ AORUS5KE0.charging_mode.modes, ∀ name, m.name = some name →
      name ++ "\n" ≠ "error\n") := by
  constructor
  · intro m hm name hname
    simp only [AORUS5KE0_fan_modes, List.mem_cons, List.mem_singleton, List.not_mem_nil,
      or_false] at hm
    rcases hm with rfl | rfl | rfl | rfl | rfl | rfl <;> cases hname <;> decide
  · intro m hm name hname
    simp only [AORUS5KE0_charging_modes, List.mem_cons, List.mem_singleton, List.not_mem_nil,
      or_false] at hm
    rcases hm with rfl | rfl | rfl <;> cases hname <;> decide

/-- The conclusion of C6 from the run invariant: a failed access is the last one
and makes the handler emit "error". -/
theorem failure_is_last (s t : EC) (buf : String) (k : Nat)
    (hrun : reads_until_failure s t (decide (buf = "error\n")))
    (h1 : s.log.length ≤ k) (h2 : k < t.log.length) (h3 : s.err k ≠ 0) :
    buf = "error\n" ∧ t.log.length = k + 1 := by
  obtain ⟨-, -, -, pre, -, ok⟩ := hrun
  constructor
  · by_contra hb
    exact h3 (ok (by simp [hb]) k h1 h2)
  · by_contra hlen
    exact h3 (pre k h1 (by omega))

/-- C6. Read failure is not "unknown": with the profile loaded and any failure
pattern of the transport, if access number `k` made by `fan_mode_show` or by
`charging_mode_show` fails, the handler emits "error" and a newline, hence neither
"unknown" nor a mode name, and access `k` is the last one it makes. -/
theorem read_failure_reported (s : EC) (stored k : Nat) :
    (s.log.length ≤ k → k < (fan_mode_show true AORUS5KE0 stored s).2.2.log.length →
      s.err k ≠ 0 →
      (fan_mode_show true AORUS5KE0 stored s).2.1 = "error\n" ∧
      (fan_mode_show true AORUS5KE0 stored s).2.2.log.length = k + 1) ∧
    (s.log.length ≤ k → k < (charging_mode_show true AORUS5KE0 stored s).2.2.log.length →
      s.err k ≠ 0 →
      (charging_mode_show true AORUS5KE0 stored s).2.1 = "error\n" ∧
      (charging_mode_show true AORUS5KE0 stored s).2.2.log.length = k + 1) := by
  have hf : fan_mode_show true AORUS5KE0 stored s
      = fan_mode_show.modes AORUS5KE0 AORUS5KE0.fan_mode.modes stored s := by
    simp [fan_mode_show]
  have hc : charging_mode_show true AORUS5KE0 stored s
      = charging_mode_show.modes AORUS5KE0 AORUS5KE0.charging_mode.modes stored s := by
    simp [charging_mode_show]
  rw [hf, hc]
  exact ⟨failure_is_last _ _ _ k (fan_modes_run _ _ stored s AORUS5KE0_names_not_error.1),
    failure_is_last _ _ _ k (charging_modes_run _ _ stored s AORUS5KE0_names_not_error.2)⟩

/-- Witness for C6: on a transport where every access fails, the first read is the
only one and both handlers emit "error". -/
theorem read_failure_reported_witness :
    ((fan_mode_show true AORUS5KE0 0 ec_dead).2.1 = "error\n" ∧
      (fan_mode_show true AORUS5KE0 0 ec_dead).2.2.log.length = 0 + 1) ∧
    ((charging_mode_show true AORUS5KE0 0 ec_dead).2.1 = "error\n" ∧
      (charging_mode_show true AORUS5KE0 0 ec_dead).2.2.log.length = 0 + 1) :=
  ⟨(read_failure_reported ec_dead 0 0).1 (by decide) (by decide) (by decide),
   (read_failure_reported ec_dead 0 0).2 (by decide) (by decide) (by decide)⟩

theorem set_bit_byte (x b : Nat) (hb : b < 8) :
    (x % 256 ||| (1 <<< b)) % 256 = x % 256 ||| 2 ^ b := by
  apply Nat.eq_of_testBit_eq
  intro i
  rw [testBit_set, Nat.testBit_or, Nat.testBit_two_pow]
  by_cases h8 : i < 8
  · by_cases h : i = b
    · subst h; simp [h8]
    · have h2 : ¬ b = i := fun e => h e.symm
      simp [h, h2, h8]
  · have hi : ¬ b = i := by omega
    have hi2 : ¬ i = b := by omega
    simp [h8, hi, hi2, testBit_byte_high x i (by omega)]

theorem clear_bit_byte (x b : Nat) (hb : b < 8) :
    (x % 256 &&& (0xFFFFFFFF ^^^ (1 <<< b))) % 256 = x % 256 &&& (255 ^^^ 2 ^ b) := by
  apply Nat.eq_of_testBit_eq
  intro i
  have h255 : (255 : Nat) = 2 ^ 8 - 1 := by norm_num
  rw [testBit_clear, Nat.testBit_and, Nat.testBit_xor, h255, Nat.testBit_two_pow_sub_one,
    Nat.testBit_two_pow]
  by_cases h8 : i < 8
  · by_cases h : i = b
    · subst h; simp [h8]
    · have h2 : ¬ b = i := fun e => h e.symm
      simp [h, h2, h8]
  · have hi : ¬ b = i := by omega
    simp [h8, hi]

theorem write_bit_ok (a bit v : Nat) (s : EC) (h : s.reliable) (hb : bit < 8) :
    write_addr_bit ⟨a, 1, bit⟩ v s
      = (0, ⟨Function.update s.mem a
              (if v > 0 then s.byte a ||| 2 ^ bit else s.byte a &&& (255 ^^^ 2 ^ bit)),
            s.err,
            s.log ++ [ec_access.read a, ec_access.write a
              (if v > 0 then s.byte a ||| 2 ^ bit else s.byte a &&& (255 ^^^ 2 ^ bit))]⟩) := by
  have hr : ∀ k, s.err k = 0 := h
  have hw : write_addr_bit ⟨a, 1, bit⟩ v s = ec_set_bit a v bit s := by simp [write_addr_bit]
  rw [hw, ec_set_bit_ok _ _ _ _ (hr _) (hr _)]
  by_cases hv : v > 0
  · simp only [hv, if_true, set_bit_byte _ _ hb, EC.byte, List.append_assoc,
      List.singleton_append]
    have e : (s.mem a % 256 ||| 2 ^ bit) % 256 = s.mem a % 256 ||| 2 ^ bit := by
      rw [← set_bit_byte _ _ hb, Nat.mod_mod]
    rw [e]
  · simp only [hv, if_false, clear_bit_byte _ _ hb, EC.byte, List.append_assoc,
      List.singleton_append]
    have e : (s.mem a % 256 &&& (255 ^^^ 2 ^ bit)) % 256 = s.mem a % 256 &&& (255 ^^^ 2 ^ bit) := by
      rw [← clear_bit_byte _ _ hb, Nat.mod_mod]
    rw [e]

theorem write_byte_ok (a bit v : Nat) (s : EC) (h : s.reliable) :
    write_addr_bit ⟨a, 8, bit⟩ v s
      = (0, ⟨Function.update s.mem a (v % 256), s.err, s.log ++ [ec_access.write a v]⟩) := by
  have hr : ∀ k, s.err k = 0 := h
  have hw : write_addr_bit ⟨a, 8, bit⟩ v s = ec_write a v s := by simp [write_addr_bit]
  rw [hw, ec_write_ok _ _ _ (hr _)]

theorem write_bit_dead (a bit v : Nat) (s : EC) (h : ∀ k, s.err k ≠ 0) :
    write_addr_bit ⟨a, 1, bit⟩ v s
      = (-(s.err s.log.length : Int), ⟨s.mem, s.err, s.log ++ [ec_access.read a]⟩) := by
  have hpos : 0 < s.err s.log.length := Nat.pos_of_ne_zero (h _)
  have hneg : -(s.err s.log.length : Int) < 0 := by omega
  simp [write_addr_bit, ec_set_bit, ec_read, h, hneg]

theorem write_byte_dead (a bit v : Nat) (s : EC) (h : ∀ k, s.err k ≠ 0) :
    write_addr_bit ⟨a, 8, bit⟩ v s
      = (-(s.err s.log.length : Int), ⟨s.mem, s.err, s.log ++ [ec_access.write a v]⟩) := by
  simp [write_addr_bit, ec_write, h]

theorem change_fan_mode_turbo_log_ok (s : EC) (h : s.reliable) :
    (gigabyte_change_fan_mode AORUS5KE0 3 s).2.log
      = s.log ++
        [ec_access.read 0x06, ec_access.write 0x06 (s.byte 0x06 ||| 0x10),
         ec_access.read 0x08, ec_access.write 0x08 (s.byte 0x08 &&& 0xBF),
         ec_access.read 0x0C, ec_access.write 0x0C (s.byte 0x0C &&& 0xEF),
         ec_access.read 0x0D, ec_access.write 0x0D (s.byte 0x0D ||| 0x80),
         ec_access.write 0xB0 0xE5, ec_access.write 0xB1 0xE5] := by
  have h1 : ∀ m l, EC.reliable ⟨m, s.err, l⟩ := fun _ _ => h
  simp only [gigabyte_change_fan_mode, GIGABYTE_EC_N_OF_ADDRESS, gigabyte_change_fan_mode.loop,
    AORUS5KE0, GIGABYTE_EC_MODE_NULL, addr_bit_zero, List.getD_cons_zero, List.getD_cons_succ]
  rw [write_bit_ok _ _ _ _ h (by decide), write_bit_ok _ _ _ _ (h1 _ _) (by decide),
    write_bit_ok _ _ _ _ (h1 _ _) (by decide), write_bit_ok _ _ _ _ (h1 _ _) (by decide),
    write_byte_ok _ _ _ _ (h1 _ _), write_byte_ok _ _ _ _ (h1 _ _)]
  simp [EC.byte, Function.update]

theorem change_fan_mode_turbo_log_dead (s : EC) (h : ∀ k, s.err k ≠ 0) :
    (gigabyte_change_fan_mode AORUS5KE0 3 s).2.log
      = s.log ++
        [ec_access.read 0x06, ec_access.read 0x08, ec_access.read 0x0C, ec_access.read 0x0D,
         ec_access.write 0xB0 0xE5, ec_access.write 0xB1 0xE5] := by
  have h1 : ∀ (m : Nat → Nat) (l : List ec_access) (k : Nat),
      (⟨m, s.err, l⟩ : EC).err k ≠ 0 := fun _ _ k => h k
  simp only [gigabyte_change_fan_mode, GIGABYTE_EC_N_OF_ADDRESS, gigabyte_change_fan_mode.loop,
    AORUS5KE0, GIGABYTE_EC_MODE_NULL, addr_bit_zero, List.getD_cons_zero, List.getD_cons_succ]
  rw [write_bit_dead _ _ _ _ h, write_bit_dead _ _ _ _ (h1 _ _),
    write_bit_dead _ _ _ _ (h1 _ _), write_bit_dead _ _ _ _ (h1 _ _),
    write_byte_dead _ _ _ _ (h1 _ _), write_byte_dead _ _ _ _ (h1 _ _)]
  simp

/-- C7. Setter write sequence: for every mode index and every EC state, failing
transport included, `gigabyte_change_fan_mode` and `gigabyte_change_charging_mode`
leave the EC as the specification's sequence does: one field write per field
location, in field-index order, value `i` of the mode to location `i`, each one
attempted whatever the outcome of the earlier ones. For turbo the six writes are
bit 4 of 0x06 := 1, bit 6 of 0x08 := 0, bit 4 of 0x0C := 0, bit 7 of 0x0D := 1,
byte 0xB0 := 0xE5, byte 0xB1 := 0xE5; the transport trace shows them in this order
both when every access succeeds and when every access fails. -/
theorem setter_write_sequence :
    (∀ mode s, (gigabyte_change_fan_mode AORUS5KE0 mode s).2
      = apply_mode AORUS5KE0.fan_mode.addr_bit
          (AORUS5KE0.fan_mode.modes.getD mode GIGABYTE_EC_MODE_NULL).value s) ∧
    (∀ mode s, (gigabyte_change_charging_mode AORUS5KE0 mode s).2
      = apply_mode AORUS5KE0.charging_mode.addr_bit
          (AORUS5KE0.charging_mode.modes.getD mode GIGABYTE_EC_MODE_NULL).value s) ∧
    (∀ s, (gigabyte_change_fan_mode AORUS5KE0 3 s).2
      = (write_addr_bit ⟨0xB1, 8, 0⟩ 0xE5
          (write_addr_bit ⟨0xB0, 8, 0⟩ 0xE5
            (write_addr_bit ⟨0x0D, 1, 7⟩ 1
              (write_addr_bit ⟨0x0C, 1, 4⟩ 0
                (write_addr_bit ⟨0x08, 1, 6⟩ 0
                  (write_addr_bit ⟨0x06, 1, 4⟩ 1 s).2).2).2).2).2).2) ∧
    (∀ s : EC, s.reliable →
      (gigabyte_change_fan_mode AORUS5KE0 3 s).2.log
        = s.log ++
          [ec_access.read 0x06, ec_access.write 0x06 (s.byte 0x06 ||| 0x10),
           ec_access.read 0x08, ec_access.write 0x08 (s.byte 0x08 &&& 0xBF),
           ec_access.read 0x0C, ec_access.write 0x0C (s.byte 0x0C &&& 0xEF),
           ec_access.read 0x0D, ec_access.write 0x0D (s.byte 0x0D ||| 0x80),
           ec_access.write 0xB0 0xE5, ec_access.write 0xB1 0xE5]) ∧
    (∀ s : EC, (∀ k, s.err k ≠ 0) →
      (gigabyte_change_fan_mode AORUS5KE0 3 s).2.log
        = s.log ++
          [ec_access.read 0x06, ec_access.read 0x08, ec_access.read 0x0C, ec_access.read 0x0D,
           ec_access.write 0xB0 0xE5, ec_access.write 0xB1 0xE5]) := by
  refine ⟨change_fan_mode_eq_apply, change_charging_mode_eq_apply, ?_,
    change_fan_mode_turbo_log_ok, change_fan_mode_turbo_log_dead⟩
  intro s
  rw [change_fan_mode_eq_apply]
  rfl

/-- Witness for C7: the turbo trace from the all-zero EC and on the dead
transport. -/
theorem setter_write_sequence_witness :
    (gigabyte_change_fan_mode AORUS5KE0 3 ec_zero).2.log
      = ec_zero.log ++
        [ec_access.read 0x06, ec_access.write 0x06 (ec_zero.byte 0x06 ||| 0x10),
         ec_access.read 0x08, ec_access.write 0x08 (ec_zero.byte 0x08 &&& 0xBF),
         ec_access.read 0x0C, ec_access.write 0x0C (ec_zero.byte 0x0C &&& 0xEF),
         ec_access.read 0x0D, ec_access.write 0x0D (ec_zero.byte 0x0D ||| 0x80),
         ec_access.write 0xB0 0xE5, ec_access.write 0xB1 0xE5] ∧
    (gigabyte_change_fan_mode AORUS5KE0 3 ec_dead).2.log
      = ec_dead.log ++
        [ec_access.read 0x06, ec_access.read 0x08, ec_access.read 0x0C, ec_access.read 0x0D,
         ec_access.write 0xB0 0xE5, ec_access.write 0xB1 0xE5] :=
  ⟨setter_write_sequence.2.2.2.1 ec_zero (fun _ => rfl),
   setter_write_sequence.2.2.2.2 ec_dead (fun _ => (by simp [ec_dead]))⟩

/-- C8 fails on the code: the first access (the read of 0x06, respectively of
0x0F) fails, so the first field write fails with -5, and both setters return 0,
the result of their last field write. -/
theorem setter_loses_early_failure :
    (write_addr_bit ⟨0x06, 1, 4⟩ 0 ec_first_fails).1 = -5 ∧
    (gigabyte_change_fan_mode AORUS5KE0 0 ec_first_fails).1 = 0 ∧
    (write_addr_bit ⟨0x0F, 1, 2⟩ 0 ec_first_fails).1 = -5 ∧
    (gigabyte_change_charging_mode AORUS5KE0 0 ec_first_fails).1 = 0 := by
  decide

/-- C9 fails on the code: on a transport where every access fails both setters
return -5, yet `fan_mode_store` and `charging_mode_store` return `count`; the
sibling `charge_control_threshold_store` returns the error -5. -/
theorem store_acknowledges_failed_write :
    (gigabyte_change_fan_mode AORUS5KE0 3 ec_dead).1 = -5 ∧
    (fan_mode_store true AORUS5KE0 "turbo\n".data 6 ec_dead).1 = 6 ∧
    (gigabyte_change_charging_mode AORUS5KE0 1 ec_dead).1 = -5 ∧
    (charging_mode_store true AORUS5KE0 "custom\n".data 7 ec_dead).1 = 7 ∧
    (charge_control_threshold_store (fun _ => Except.ok 80) true AORUS5KE0 "80\n".data 3
      ec_dead).1 = -5 := by
  decide

/-! ## Name lookup -/

theorem strcmp_eq_zero : ∀ (a b : List Char), strcmp a b = 0 → a = b := by
  intro a
  induction a with
  | nil =>
    intro b h
    cases b with
    | nil => rfl
    | cons y ys => simp [strcmp] at h
  | cons x xs ih =>
    intro b h
    cases b with
    | nil => simp [strcmp] at h
    | cons y ys =>
      rw [strcmp] at h
      by_cases hxy : x = y
      · rw [if_pos hxy] at h
        rw [hxy, ih ys h]
      · rw [if_neg hxy] at h
        split at h <;> simp at h

theorem take_append_last (t : List Char) (c : Char) (ht : t ≠ [])
    (hlast : t.getD (t.length - 1) (Char.ofNat 0) = c) :
    t = t.take (t.length - 1) ++ [c] := by
  have h1 : t.dropLast ++ [t.getLast ht] = t := List.dropLast_append_getLast ht
  have h2 : t.getLast ht = c := by
    rw [← hlast, List.getLast_eq_getElem, List.getD_eq_getElem?_getD,
      List.getElem?_eq_getElem (by
        have := List.length_pos.mpr ht
        omega)]
    rfl
  rw [← List.dropLast_eq_take, ← h2]
  exact h1.symm

/-- A zero result of `strcmp_trim_newline2` means the input is the name, or the
name followed by one newline. -/
theorem strcmp_trim_newline2_zero (s t : List Char) (h : strcmp_trim_newline2 s t = 0) :
    t = s ∨ t = s ++ ['\n'] := by
  unfold strcmp_trim_newline2 at h
  simp only [] at h
  split at h
  · simp at h
  · rename_i hlen
    have ht : t ≠ [] := by
      intro e
      rw [e] at hlen
      simp at hlen
    split at h
    · rename_i hnl
      right
      have e := strcmp_eq_zero _ _ h
      rw [e]
      exact take_append_last t '\n' ht hnl
    · left
      exact (strcmp_eq_zero _ _ h).symm

theorem fan_store_no_match (ec_conf : gigabyte_ec_conf) (buf : List Char) (count : Nat) :
    ∀ (modes : List gigabyte_ec_mode) (i : Nat) (s : EC),
      (∀ m ∈ modes, ∀ name, m.name = some name →
        cstr buf ≠ name.data ∧ cstr buf ≠ name.data ++ ['\n']) →
      fan_mode_store.modes ec_conf buf count modes i s = (-EINVAL, s) := by
  intro modes
  induction modes with
  | nil => intro i s _; rw [fan_mode_store.modes]
  | cons m rest ih =>
    intro i s hn
    rw [fan_mode_store.modes]
    cases hname : m.name with
    | none => rfl
    | some name =>
      have hne := hn m (List.mem_cons_self _ _) name hname
      have hz : ¬ strcmp_trim_newline2 name.data (cstr buf) = 0 := by
        intro hz
        rcases strcmp_trim_newline2_zero _ _ hz with e | e
        · exact hne.1 e
        · exact hne.2 e
      simp only [hz, if_false]
      exact ih (i + 1) s (fun m2 hm2 => hn m2 (List.mem_cons_of_mem _ hm2))

theorem charging_store_no_match (ec_conf : gigabyte_ec_conf) (buf : List Char) (count : Nat) :
    ∀ (modes : List gigabyte_ec_mode) (i : Nat) (s : EC),
      (∀ m ∈ modes, ∀ name, m.name = some name →
        cstr buf ≠ name.data ∧ cstr buf ≠ name.data ++ ['\n']) →
      charging_mode_store.modes ec_conf buf count modes i s = (-EINVAL, s) := by
  intro modes
  induction modes with
  | nil => intro i s _; rw [charging_mode_store.modes]
  | cons m rest ih =>
    intro i s hn
    rw [charging_mode_store.modes]
    cases hname : m.name with
    | none => rfl
    | some name =>
      have hne := hn m (List.mem_cons_self _ _) name hname
      have hz : ¬ strcmp_trim_newline2 name.data (cstr buf) = 0 := by
        intro hz
        rcases strcmp_trim_newline2_zero _ _ hz with e | e
        · exact hne.1 e
        · exact hne.2 e
      simp only [hz, if_false]
      exact ih (i + 1) s (fun m2 hm2 => hn m2 (List.mem_cons_of_mem _ hm2))

/-- C10. Invalid name: with the profile loaded, an input whose text is no mode
name of the family, with or without one trailing newline, makes `fan_mode_store`
and `charging_mode_store` return `-EINVAL` and leave the EC, its access trace
included, exactly as it was: no read and no write is made. -/
theorem invalid_name_rejected (buf : List Char) (count : Nat) (s : EC) :
    ((∀ m ∈ AORUS5KE0.fan_mode.modes, ∀ name, m.name = some name →
        cstr buf ≠ name.data ∧ cstr buf ≠ name.data ++ ['\n']) →
      fan_mode_store true AORUS5KE0 buf count s = (-EINVAL, s)) ∧
    ((∀ m ∈ AORUS5KE0.charging_mode.modes, ∀ name, m.name = some name →
        cstr buf ≠ name.data ∧ cstr buf ≠ name.data ++ ['\n']) →
      charging_mode_store true AORUS5KE0 buf count s = (-EINVAL, s)) := by
  constructor
  · intro hn
    unfold fan_mode_store
    split
    · rfl
    · exact fan_store_no_match _ _ _ _ _ _ hn
  · intro hn
    unfold charging_mode_store
    split
    · rfl
    · exact charging_store_no_match _ _ _ _ _ _ hn

/-- Witness for C10: the input "not-a-real-mode" is rejected by both handlers and
the EC is untouched. -/
theorem invalid_name_rejected_witness :
    fan_mode_store true AORUS5KE0 "not-a-real-mode".data 15 ec_zero = (-EINVAL, ec_zero) ∧
    charging_mode_store true AORUS5KE0 "not-a-real-mode".data 15 ec_zero
      = (-EINVAL, ec_zero) :=
  ⟨(invalid_name_rejected "not-a-real-mode".data 15 ec_zero).1 (by
      intro m hm name hname
      simp only [AORUS5KE0_fan_modes, List.mem_cons, List.mem_singleton, List.not_mem_nil,
        or_false] at hm
      rcases hm with rfl | rfl | rfl | rfl | rfl | rfl <;> cases hname <;> decide),
   (invalid_name_rejected "not-a-real-mode".data 15 ec_zero).2 (by
      intro m hm name hname
      simp only [AORUS5KE0_charging_modes, List.mem_cons, List.mem_singleton,
        List.not_mem_nil, or_false] at hm
      rcases hm with rfl | rfl | rfl <;> cases hname <;> decide)⟩

/-! ## Name lookup, both directions -/

theorem strcmp_trim_newline2_eq_with (s t : List Char) :
    strcmp_trim_newline2 s t = strcmp_trim_newline2_with strcmp s t := rfl

theorem strcmp_self : ∀ a : List Char, strcmp a a = 0 := by
  intro a
  induction a with
  | nil => rfl
  | cons x xs ih => rw [strcmp, if_pos rfl, ih]

theorem guard_small (n : Nat) (h1 : 1 ≤ n) (h2 : n ≤ 11) :
    ¬ (n + 2 ^ 64 - 1) % 2 ^ 64 > 10 := by
  omega

theorem guard_large (n : Nat) (h1 : 12 ≤ n) (h2 : n < 2 ^ 64) :
    (n + 2 ^ 64 - 1) % 2 ^ 64 > 10 := by
  omega

theorem last_not_newline (s : List Char) (hs : s ≠ []) (hnl : '\n' ∉ s) :
    ¬ s.getD (s.length - 1) (Char.ofNat 0) = '\n' := by
  intro h
  have hpos := List.length_pos.mpr hs
  have hlt : s.length - 1 < s.length := by omega
  rw [List.getD_eq_getElem _ _ hlt] at h
  exact hnl (h ▸ List.getElem_mem _)

/-- The name itself and the name followed by one newline compare equal. -/
theorem strcmp_trim_newline2_match (s : List Char) (hs : s ≠ []) (hlen : s.length ≤ 10)
    (hnl : '\n' ∉ s) :
    strcmp_trim_newline2 s s = 0 ∧ strcmp_trim_newline2 s (s ++ ['\n']) = 0 := by
  have hpos := List.length_pos.mpr hs
  constructor
  · unfold strcmp_trim_newline2
    simp only []
    rw [if_neg (guard_small _ (by omega) (by omega)), if_neg (last_not_newline s hs hnl)]
    exact strcmp_self s
  · unfold strcmp_trim_newline2
    simp only []
    rw [if_neg (guard_small _ (by simp) (by simp; omega))]
    have hl : (s ++ ['\n']).getD ((s ++ ['\n']).length - 1) (Char.ofNat 0) = '\n' := by
      simp [List.getD_eq_getElem?_getD]
    rw [if_pos hl]
    have ht : (s ++ ['\n']).take ((s ++ ['\n']).length - 1) = s := by simp
    rw [ht]
    exact strcmp_self s

/-- C11, amended. Name lookup: for a table name `s` (non-empty, at most 10
characters, no newline) and an input `t`, `strcmp_trim_newline2 s t` is 0 exactly
when `t` is `s` or `s` followed by one newline; so an input that differs from `s`
only by letter case, the name with two trailing newlines and the empty input do
not match. An input of 12 or more characters is answered -1 by the length guard
whatever the comparison function, that is without being copied or compared; an
input of 11 characters without a trailing newline passes the guard and is handed
to the comparison as it is. -/
theorem name_lookup (s : List Char) (hs : s ≠ []) (hlen : s.length ≤ 10) (hnl : '\n' ∉ s) :
    (∀ t, strcmp_trim_newline2 s t = 0 ↔ t = s ∨ t = s ++ ['\n']) ∧
    (∀ t, t.map Char.toLower = s.map Char.toLower → t ≠ s → strcmp_trim_newline2 s t ≠ 0) ∧
    strcmp_trim_newline2 s (s ++ ['\n', '\n']) ≠ 0 ∧
    strcmp_trim_newline2 s [] ≠ 0 ∧
    (∀ cmp t, 12 ≤ t.length → t.length < 2 ^ 64 → strcmp_trim_newline2_with cmp s t = -1) ∧
    (∀ cmp t, t.length = 11 → t.getD 10 (Char.ofNat 0) ≠ '\n' →
      strcmp_trim_newline2_with cmp s t = cmp s t) := by
  have hiff : ∀ t, strcmp_trim_newline2 s t = 0 ↔ t = s ∨ t = s ++ ['\n'] := by
    intro t
    constructor
    · exact strcmp_trim_newline2_zero s t
    · rintro (rfl | rfl)
      · exact (strcmp_trim_newline2_match _ hs hlen hnl).1
      · exact (strcmp_trim_newline2_match s hs hlen hnl).2
  refine ⟨hiff, ?_, ?_, ?_, ?_, ?_⟩
  · intro t hmap hne h0
    rcases (hiff t).mp h0 with e | e
    · exact hne e
    · have hl := congrArg List.length hmap
      rw [e] at hl
      simp at hl
  · intro h0
    rcases (hiff _).mp h0 with e | e
    · have hl := congrArg List.length e
      simp at hl
    · have hl := congrArg List.length e
      simp at hl
  · intro h0
    rcases (hiff _).mp h0 with e | e
    · exact hs e.symm
    · have hl := congrArg List.length e
      simp at hl
  · intro cmp t h12 h64
    unfold strcmp_trim_newline2_with
    simp only []
    rw [if_pos (guard_large _ h12 h64)]
  · intro cmp t h11 hlast
    unfold strcmp_trim_newline2_with
    simp only []
    rw [if_neg (guard_small _ (by omega) (by omega)), h11, if_neg hlast]

/-- Witness for C11, amended, at the name "normal": the name and the name with one
newline match, "Normal" does not, and a 12-character input is answered -1 for a
comparison that would say equal. -/
theorem name_lookup_witness :
    (strcmp_trim_newline2 "normal".data "normal\n".data = 0 ↔
      "normal\n".data = "normal".data ∨ "normal\n".data = "normal".data ++ ['\n']) ∧
    strcmp_trim_newline2 "normal".data "Normal".data ≠ 0 ∧
    strcmp_trim_newline2_with (fun _ _ => 0) "normal".data "normal-speed".data = -1 :=
  ⟨(name_lookup "normal".data (by decide) (by decide) (by decide)).1 "normal\n".data,
   (name_lookup "normal".data (by decide) (by decide) (by decide)).2.1 "Normal".data
     (by decide) (by decide),
   (name_lookup "normal".data (by decide) (by decide) (by decide)).2.2.2.2.1 (fun _ _ => 0)
     "normal-speed".data (by decide) (by decide)⟩

/-- C11 as stated fails in its last clause: "abcdefghijk" has 11 characters and no
trailing newline, so it is longer than 10 characters after trimming, yet the
length guard lets it through and the result is whatever the comparison says: 0 or
7 for the constant comparisons, and 1 (not the guard's -1) for `strcmp`. -/
theorem name_lookup_counterexample :
    "abcdefghijk".data.length = 11 ∧
    "abcdefghijk".data.getD 10 (Char.ofNat 0) ≠ '\n' ∧
    strcmp_trim_newline2_with (fun _ _ => 0) "normal".data "abcdefghijk".data = 0 ∧
    strcmp_trim_newline2_with (fun _ _ => 7) "normal".data "abcdefghijk".data = 7 ∧
    strcmp_trim_newline2 "normal".data "abcdefghijk".data = 1 := by
  decide

/-! ## Charge threshold and the unloaded driver -/

theorem threshold_loc :
    AORUS5KE0.charge_threshold.addr_bit.getD 0 addr_bit_zero = ⟨0xA9, 8, 0⟩ := rfl

/-- What `charge_control_threshold_store` does with a parsed byte, profile loaded
and `count` not 0. -/
theorem threshold_store_parsed (kstrtou8 : List Char → Except Int Nat) (buf : List Char)
    (count v : Nat) (s : EC) (hcount : 0 < count) (hparse : kstrtou8 (cstr buf) = Except.ok v) :
    charge_control_threshold_store kstrtou8 true AORUS5KE0 buf count s
      = if v < 60 ∨ v > 100 then (-EINVAL, s)
        else if (write_addr_bit ⟨0xA9, 8, 0⟩ v s).1 < 0 then write_addr_bit ⟨0xA9, 8, 0⟩ v s
        else ((count : Int), (write_addr_bit ⟨0xA9, 8, 0⟩ v s).2) := by
  have hc : ¬ count = 0 := by omega
  unfold charge_control_threshold_store
  simp only [Bool.not_true, Bool.false_or, decide_eq_true_eq, hc, if_false, hparse,
    threshold_loc]
  rfl

/-- C12. Threshold boundary: with the AORUS5KE0 profile loaded, a transport that
succeeds and an input that parses to the byte `v`, `charge_control_threshold_store`
returns `count` and leaves byte 0xA9 equal to `v` exactly when 60 <= v <= 100; for
`v` outside the range it returns `-EINVAL` and the EC, access trace included, is
as before. -/
theorem threshold_boundary (kstrtou8 : List Char → Except Int Nat) (buf : List Char)
    (count v : Nat) (s : EC) (hcount : 0 < count) (hv : v < 256)
    (hparse : kstrtou8 (cstr buf) = Except.ok v) (h : s.reliable) :
    (((charge_control_threshold_store kstrtou8 true AORUS5KE0 buf count s).1 = (count : Int) ∧
        (charge_control_threshold_store kstrtou8 true AORUS5KE0 buf count s).2.byte 0xA9 = v) ↔
      (60 ≤ v ∧ v ≤ 100)) ∧
    (¬ (60 ≤ v ∧ v ≤ 100) →
      charge_control_threshold_store kstrtou8 true AORUS5KE0 buf count s = (-EINVAL, s)) := by
  rw [threshold_store_parsed kstrtou8 buf count v s hcount hparse, write_byte_ok _ _ _ _ h]
  by_cases hr : v < 60 ∨ v > 100
  · have hout : ¬ (60 ≤ v ∧ v ≤ 100) := by omega
    simp only [hr, if_true, hout, iff_false, not_and, not_false_eq_true, forall_true_left,
      and_true]
    intro hres
    exfalso
    simp only [EINVAL] at hres
    omega
  · have hin : 60 ≤ v ∧ v ≤ 100 := by omega
    simp only [hr, if_false, lt_self_iff_false, hin, and_self, iff_true, not_true_eq_false,
      false_implies, and_true, true_and]
    simp [EC.byte, Nat.mod_eq_of_lt hv]

/-- Witness for C12: 60 and 100 are stored, 59 and 101 are refused. -/
theorem threshold_boundary_witness :
    (((charge_control_threshold_store (fun _ => Except.ok 60) true AORUS5KE0 "60".data 2
          ec_zero).1 = ((2 : Nat) : Int) ∧
        (charge_control_threshold_store (fun _ => Except.ok 60) true AORUS5KE0 "60".data 2
          ec_zero).2.byte 0xA9 = 60) ↔ (60 ≤ 60 ∧ 60 ≤ 100)) ∧
    (((charge_control_threshold_store (fun _ => Except.ok 100) true AORUS5KE0 "100".data 3
          ec_zero).1 = ((3 : Nat) : Int) ∧
        (charge_control_threshold_store (fun _ => Except.ok 100) true AORUS5KE0 "100".data 3
          ec_zero).2.byte 0xA9 = 100) ↔ (60 ≤ 100 ∧ 100 ≤ 100)) ∧
    charge_control_threshold_store (fun _ => Except.ok 59) true AORUS5KE0 "59".data 2 ec_zero
      = (-EINVAL, ec_zero) ∧
    charge_control_threshold_store (fun _ => Except.ok 101) true AORUS5KE0 "101".data 3 ec_zero
      = (-EINVAL, ec_zero) :=
  ⟨(threshold_boundary (fun _ => Except.ok 60) "60".data 2 60 ec_zero (by decide) (by decide)
      rfl (fun _ => rfl)).1,
   (threshold_boundary (fun _ => Except.ok 100) "100".data 3 100 ec_zero (by decide)
      (by decide) rfl (fun _ => rfl)).1,
   (threshold_boundary (fun _ => Except.ok 59) "59".data 2 59 ec_zero (by decide) (by decide)
      rfl (fun _ => rfl)).2 (by decide),
   (threshold_boundary (fun _ => Except.ok 101) "101".data 3 101 ec_zero (by decide)
      (by decide) rfl (fun _ => rfl)).2 (by decide)⟩

/-- C13. Uninitialized subsystem: with `conf_loaded` false each of the six handlers
returns `-EINVAL` for every profile content, every input and every EC, emits no
text and leaves the EC, access trace included, as it was. -/
theorem unloaded_handlers_fail (ec_conf : gigabyte_ec_conf)
    (kstrtou8 : List Char → Except Int Nat) (buf : List Char) (count stored : Nat) (s : EC) :
    fan_mode_show false ec_conf stored s = (-EINVAL, "", s) ∧
    fan_mode_store false ec_conf buf count s = (-EINVAL, s) ∧
    charging_mode_show false ec_conf stored s = (-EINVAL, "", s) ∧
    charging_mode_store false ec_conf buf count s = (-EINVAL, s) ∧
    charge_control_threshold_show false ec_conf stored s = (-EINVAL, "", s) ∧
    charge_control_threshold_store kstrtou8 false ec_conf buf count s = (-EINVAL, s) := by
  refine ⟨?_, ?_, ?_, ?_, ?_, ?_⟩
  · simp [fan_mode_show]
  · simp [fan_mode_store]
  · simp [charging_mode_show]
  · simp [charging_mode_store]
  · simp [charge_control_threshold_show]
  · simp [charge_control_threshold_store]

/-! ## Codec round trip and the charging matcher -/

/-- C14. Codec write-then-read: on a transport that succeeds, for a bit field
(bit index 0..7) or a byte field and a byte value `v`, `read_addr_bit` right after
`write_addr_bit loc v` returns 0 and yields, for a bit field, 1 if `v` is nonzero
and 0 if `v` is zero, and for a byte field `v` itself. A bit-field read always
yields bit `bit` of the byte at the address, which is 0 or 1. -/
theorem write_then_read (loc : gigabyte_ec_addr_bit) (v out : Nat) (s : EC)
    (hloc : loc.size = 1 ∧ loc.bit < 8 ∨ loc.size = 8) (hv : v < 256) (h : s.reliable) :
    (write_addr_bit loc v s).1 = 0 ∧
    (read_addr_bit loc out (write_addr_bit loc v s).2).1 = 0 ∧
    (read_addr_bit loc out (write_addr_bit loc v s).2).2.1
      = (if loc.size = 1 then (if v = 0 then 0 else 1) else v) ∧
    (loc.size = 1 → ∀ t : EC, t.reliable →
      (read_addr_bit loc out t).2.1 = ((t.byte loc.addr).testBit loc.bit).toNat ∧
      (read_addr_bit loc out t).2.1 ≤ 1) := by
  obtain ⟨hres, hrel, hval, -⟩ := write_addr_bit_reliable loc v s h hloc
  have hsz : loc.size = 1 ∨ loc.size = 8 := by
    rcases hloc with h1 | h8
    · exact Or.inl h1.1
    · exact Or.inr h8
  refine ⟨hres, ?_, ?_, ?_⟩
  · rw [read_addr_bit_ok loc out _ hsz (hrel _)]
  · rw [read_addr_bit_ok loc out _ hsz (hrel _)]
    simp only []
    rw [hval, written_value]
    by_cases h1 : loc.size = 1
    · by_cases h0 : v = 0
      · simp [h1, h0]
      · have hpos : v > 0 := Nat.pos_of_ne_zero h0
        simp [h1, h0, hpos]
    · simp [h1, Nat.mod_eq_of_lt hv]
  · intro h1 t ht
    rw [read_addr_bit_ok loc out t (Or.inl h1) (ht _)]
    simp only [field_value, h1, if_true, true_and]
    cases (t.byte loc.addr).testBit loc.bit <;> simp

/-- Witness for C14: bit 4 of 0x06 written with 0xE5 reads back 1, byte 0xB0 written
with 0xE5 reads back 0xE5. -/
theorem write_then_read_witness :
    (read_addr_bit ⟨0x06, 1, 4⟩ 0 (write_addr_bit ⟨0x06, 1, 4⟩ 0xE5 ec_zero).2).2.1
      = (if (1 : Nat) = 1 then (if (0xE5 : Nat) = 0 then 0 else 1) else 0xE5) ∧
    (read_addr_bit ⟨0xB0, 8, 0⟩ 0 (write_addr_bit ⟨0xB0, 8, 0⟩ 0xE5 ec_zero).2).2.1
      = (if (8 : Nat) = 1 then (if (0xE5 : Nat) = 0 then 0 else 1) else 0xE5) :=
  ⟨(write_then_read ⟨0x06, 1, 4⟩ 0xE5 0 ec_zero (Or.inl ⟨rfl, by decide⟩) (by decide)
      (fun _ => rfl)).2.2.1,
   (write_then_read ⟨0xB0, 8, 0⟩ 0xE5 0 ec_zero (Or.inr rfl) (by decide)
      (fun _ => rfl)).2.2.1⟩

/-- The trace of `charging_mode_show` on a transport that succeeds: one read of
0x0F per table entry tried. -/
theorem charging_show_log_ok (stored : Nat) (s : EC) (h : s.reliable) :
    (charging_mode_show true AORUS5KE0 stored s).2.2.log
      = s.log ++ (if (s.byte 0x0F).testBit 2 then [ec_access.read 0x0F, ec_access.read 0x0F]
          else [ec_access.read 0x0F]) := by
  have h1 := reliable_with_log s h
  have e : ∀ l, ({ s with log := l } : EC).byte 0x0F = s.byte 0x0F := fun _ => rfl
  simp only [charging_mode_show, Bool.not_true, Bool.false_eq_true, if_false]
  rw [AORUS5KE0_charging_modes, charging_modes_step _ _ _ _ _ h]
  simp only [List.getD_cons_zero]
  cases hb : (s.byte 0x0F).testBit 2
  · simp
  · rw [charging_modes_step _ _ _ _ _ (h1 _)]
    simp [e, hb]

/-- C15. The charging matcher consults only the first field: two EC states with
reads succeeding that agree on bit 2 of the byte at 0x0F make `charging_mode_show`
emit the same text, whatever byte 0xA9 holds in either, and every access the
handler makes is a read of 0x0F, so 0xA9 is never read. -/
theorem charging_matcher_first_field_only (s1 s2 : EC) (stored1 stored2 : Nat)
    (h1 : s1.reliable) (h2 : s2.reliable)
    (hbit : (s1.byte 0x0F).testBit 2 = (s2.byte 0x0F).testBit 2) :
    (charging_mode_show true AORUS5KE0 stored1 s1).2.1
      = (charging_mode_show true AORUS5KE0 stored2 s2).2.1 ∧
    (∃ ops, (charging_mode_show true AORUS5KE0 stored1 s1).2.2.log = s1.log ++ ops ∧
      ∀ o ∈ ops, o = ec_access.read 0x0F) ∧
    (∃ ops, (charging_mode_show true AORUS5KE0 stored2 s2).2.2.log = s2.log ++ ops ∧
      ∀ o ∈ ops, o = ec_access.read 0x0F) := by
  have hlog : ∀ (s : EC) (stored : Nat), s.reliable →
      ∃ ops, (charging_mode_show true AORUS5KE0 stored s).2.2.log = s.log ++ ops ∧
        ∀ o ∈ ops, o = ec_access.read 0x0F := by
    intro s stored hs
    refine ⟨_, charging_show_log_ok stored s hs, ?_⟩
    intro o ho
    cases hb : (s.byte 0x0F).testBit 2 <;> rw [hb] at ho <;> simp at ho
    · exact ho
    · exact ho
  refine ⟨?_, hlog s1 stored1 h1, hlog s2 stored2 h2⟩
  rw [charging_show_ok _ _ h1, charging_show_ok _ _ h2, hbit]

/-- Witness for C15: the all-zero register file and the one with 0xA9 = 0x3C agree
on bit 2 of 0x0F and read the same. -/
theorem charging_matcher_first_field_only_witness :
    (charging_mode_show true AORUS5KE0 0 ec_zero).2.1
      = (charging_mode_show true AORUS5KE0 0 ec_custom_threshold).2.1 :=
  (charging_matcher_first_field_only ec_zero ec_custom_threshold 0 0 (fun _ => rfl)
    (fun _ => rfl) (by decide)).1

/-! ## Table facts and frame properties -/

theorem charging_value_0 :
    (AORUS5KE0.charging_mode.modes.getD 0 GIGABYTE_EC_MODE_NULL).value
      = [0, 0x61, 0, 0, 0, 0] := rfl

theorem charging_value_1 :
    (AORUS5KE0.charging_mode.modes.getD 1 GIGABYTE_EC_MODE_NULL).value
      = [1, 0x3C, 0, 0, 0, 0] := rfl

theorem charging_observed_eq (s : EC) :
    charging_observed s = [((s.byte 0x0F).testBit 2).toNat, s.byte 0xA9] := rfl

/-- C16. No overlapping patterns: in the AORUS5KE0 profile the value vectors of
the named modes are pairwise distinct, four fan vectors over six fields and two
charging vectors over two fields. So in every EC state at most one named mode of a
family has all its fields equal to the observed values, and with reads succeeding
the matcher reports any named mode that has, first in table order or not. -/
theorem no_overlapping_patterns :
    (∀ i j ni nj,
      (AORUS5KE0.fan_mode.modes.getD i GIGABYTE_EC_MODE_NULL).name = some ni →
      (AORUS5KE0.fan_mode.modes.getD j GIGABYTE_EC_MODE_NULL).name = some nj →
      (AORUS5KE0.fan_mode.modes.getD i GIGABYTE_EC_MODE_NULL).value
        = (AORUS5KE0.fan_mode.modes.getD j GIGABYTE_EC_MODE_NULL).value → i = j) ∧
    (∀ i j ni nj,
      (AORUS5KE0.charging_mode.modes.getD i GIGABYTE_EC_MODE_NULL).name = some ni →
      (AORUS5KE0.charging_mode.modes.getD j GIGABYTE_EC_MODE_NULL).name = some nj →
      (AORUS5KE0.charging_mode.modes.getD i GIGABYTE_EC_MODE_NULL).value.take 2
        = (AORUS5KE0.charging_mode.modes.getD j GIGABYTE_EC_MODE_NULL).value.take 2 → i = j) ∧
    (∀ (s : EC) (stored : Nat), s.reliable → ∀ i name,
      (AORUS5KE0.fan_mode.modes.getD i GIGABYTE_EC_MODE_NULL).name = some name →
      (AORUS5KE0.fan_mode.modes.getD i GIGABYTE_EC_MODE_NULL).value = fan_observed s →
      (fan_mode_show true AORUS5KE0 stored s).2.1 = name ++ "\n") ∧
    (∀ (s : EC) (stored : Nat), s.reliable → ∀ i name,
      (AORUS5KE0.charging_mode.modes.getD i GIGABYTE_EC_MODE_NULL).name = some name →
      (AORUS5KE0.charging_mode.modes.getD i GIGABYTE_EC_MODE_NULL).value.take 2
        = charging_observed s →
      (charging_mode_show true AORUS5KE0 stored s).2.1 = name ++ "\n") := by
  refine ⟨?_, ?_, ?_, ?_⟩
  · intro i j ni nj hi hj hv
    have h4i := fan_named_lt i ni hi
    have h4j := fan_named_lt j nj hj
    interval_cases i <;> interval_cases j <;> first | rfl | exact absurd hv (by decide)
  · intro i j ni nj hi hj hv
    have h2i := charging_named_lt i ni hi
    have h2j := charging_named_lt j nj hj
    interval_cases i <;> interval_cases j <;> first | rfl | exact absurd hv (by decide)
  · intro s stored h i name hm hv
    obtain ⟨l0, l1, l2, l3, -⟩ := fan_lookup_spec (fan_observed s) _ (fan_show_ok stored s h)
    have h4 := fan_named_lt i name hm
    interval_cases i <;> cases hm
    · rw [fan_value_0] at hv
      exact l0.mpr hv
    · rw [fan_value_1] at hv
      exact l1.mpr ⟨hv, by rw [← hv]; decide⟩
    · rw [fan_value_2] at hv
      exact l2.mpr ⟨hv, by rw [← hv]; decide, by rw [← hv]; decide⟩
    · rw [fan_value_3] at hv
      exact l3.mpr ⟨hv, by rw [← hv]; decide, by rw [← hv]; decide, by rw [← hv]; decide⟩
  · intro s stored h i name hm hv
    have h2 := charging_named_lt i name hm
    rw [charging_show_ok _ _ h]
    rw [charging_observed_eq] at hv
    interval_cases i <;> cases hm
    · rw [charging_value_0] at hv
      cases hb : (s.byte 0x0F).testBit 2
      · rfl
      · rw [hb] at hv; simp at hv
    · rw [charging_value_1] at hv
      cases hb : (s.byte 0x0F).testBit 2
      · rw [hb] at hv; simp at hv
      · rfl

/-- Witness for C16: the turbo register file matches the last fan entry and is
reported as turbo; the custom register file matches the second charging entry and
is reported as custom. -/
theorem no_overlapping_patterns_witness :
    (fan_mode_show true AORUS5KE0 0 ec_turbo).2.1 = "turbo" ++ "\n" ∧
    (charging_mode_show true AORUS5KE0 0 ec_custom).2.1 = "custom" ++ "\n" :=
  ⟨no_overlapping_patterns.2.2.1 ec_turbo 0 (fun _ => rfl) 3 "turbo" rfl (by decide),
   no_overlapping_patterns.2.2.2 ec_custom 0 (fun _ => rfl) 1 "custom" rfl (by decide)⟩

theorem fan_observed_frame (s t : EC)
    (h : ∀ a, a ≠ 0xA9 → t.mem a = s.mem a) : fan_observed t = fan_observed s := by
  simp only [fan_observed, observed, AORUS5KE0, List.map_cons, List.map_nil, field_value,
    EC.byte]
  rw [h 0x06 (by decide), h 0x08 (by decide), h 0x0C (by decide), h 0x0D (by decide),
    h 0xB0 (by decide), h 0xB1 (by decide)]

/-- C17. A threshold write does not disturb the reported modes: with the profile
loaded, a transport that succeeds and an input that parses to an in-range byte
`v`, `charge_control_threshold_store` returns `count`, sets byte 0xA9 to `v`,
changes no other register, and `fan_mode_show` and `charging_mode_show` emit after
the store what they emit before it. -/
theorem threshold_write_keeps_modes (kstrtou8 : List Char → Except Int Nat)
    (buf : List Char) (count v stored : Nat) (s : EC) (hcount : 0 < count)
    (hparse : kstrtou8 (cstr buf) = Except.ok v) (hlo : 60 ≤ v) (hhi : v ≤ 100)
    (h : s.reliable) :
    (charge_control_threshold_store kstrtou8 true AORUS5KE0 buf count s).1 = (count : Int) ∧
    (charge_control_threshold_store kstrtou8 true AORUS5KE0 buf count s).2.byte 0xA9 = v ∧
    (∀ a, a ≠ 0xA9 →
      (charge_control_threshold_store kstrtou8 true AORUS5KE0 buf count s).2.mem a = s.mem a) ∧
    (fan_mode_show true AORUS5KE0 stored
        (charge_control_threshold_store kstrtou8 true AORUS5KE0 buf count s).2).2.1
      = (fan_mode_show true AORUS5KE0 stored s).2.1 ∧
    (charging_mode_show true AORUS5KE0 stored
        (charge_control_threshold_store kstrtou8 true AORUS5KE0 buf count s).2).2.1
      = (charging_mode_show true AORUS5KE0 stored s).2.1 := by
  have hr : ¬ (v < 60 ∨ v > 100) := by omega
  have hv : v < 256 := by omega
  rw [threshold_store_parsed kstrtou8 buf count v s hcount hparse, write_byte_ok _ _ _ _ h]
  simp only [hr, if_false, lt_self_iff_false]
  have hrel : EC.reliable ⟨Function.update s.mem 0xA9 (v % 256), s.err,
      s.log ++ [ec_access.write 0xA9 v]⟩ := h
  have hframe : ∀ a, a ≠ 0xA9 → Function.update s.mem 0xA9 (v % 256) a = s.mem a := by
    intro a ha
    simp [Function.update, ha]
  refine ⟨trivial, ?_, hframe, ?_, ?_⟩
  · simp [EC.byte, Nat.mod_eq_of_lt hv]
  · rw [fan_show_ok _ _ hrel, fan_show_ok _ _ h, fan_observed_frame s _ hframe]
  · rw [charging_show_ok _ _ hrel, charging_show_ok _ _ h]
    have e := hframe 0x0F (by decide)
    simp only [EC.byte, e]

/-- Witness for C17: storing 80 on the custom register file. -/
theorem threshold_write_keeps_modes_witness :
    (charge_control_threshold_store (fun _ => Except.ok 80) true AORUS5KE0 "80".data 2
      ec_custom).2.byte 0xA9 = 80 ∧
    (charging_mode_show true AORUS5KE0 0
        (charge_control_threshold_store (fun _ => Except.ok 80) true AORUS5KE0 "80".data 2
          ec_custom).2).2.1
      = (charging_mode_show true AORUS5KE0 0 ec_custom).2.1 :=
  ⟨(threshold_write_keeps_modes (fun _ => Except.ok 80) "80".data 2 80 0 ec_custom (by decide)
      rfl (by decide) (by decide) (fun _ => rfl)).2.1,
   (threshold_write_keeps_modes (fun _ => Except.ok 80) "80".data 2 80 0 ec_custom (by decide)
      rfl (by decide) (by decide) (fun _ => rfl)).2.2.2.2⟩

/-- C18. Applying a charging mode keeps the threshold in range: the second field
of the charging family and the charge threshold are the same location (byte 0xA9),
and on a transport that succeeds, after `gigabyte_change_charging_mode` for a
named mode (standard writes 0x61, custom writes 0x3C)
`charge_control_threshold_show` emits the decimal text of a value within
[range_min, range_max] = [60, 100]. -/
theorem charging_mode_keeps_threshold_in_range (s : EC) (stored : Nat) (h : s.reliable) :
    AORUS5KE0.charging_mode.addr_bit.getD 1 addr_bit_zero
      = AORUS5KE0.charge_threshold.addr_bit.getD 0 addr_bit_zero ∧
    AORUS5KE0.charge_threshold.range_min = 60 ∧ AORUS5KE0.charge_threshold.range_max = 100 ∧
    (∀ m name, (AORUS5KE0.charging_mode.modes.getD m GIGABYTE_EC_MODE_NULL).name = some name →
      ∃ v, (charge_control_threshold_show true AORUS5KE0 stored
              (gigabyte_change_charging_mode AORUS5KE0 m s).2).2.1 = toString v ∧
        v = (AORUS5KE0.charging_mode.modes.getD m GIGABYTE_EC_MODE_NULL).value.getD 1 0 ∧
        AORUS5KE0.charge_threshold.range_min ≤ v ∧
        v ≤ AORUS5KE0.charge_threshold.range_max) := by
  refine ⟨rfl, rfl, rfl, ?_⟩
  intro m name hm
  obtain ⟨hrel, hval, -⟩ := apply_mode_reliable AORUS5KE0.charging_mode.addr_bit
    (AORUS5KE0.charging_mode.modes.getD m GIGABYTE_EC_MODE_NULL).value s h
    (by decide) (by decide)
  rw [change_charging_mode_eq_apply]
  have hshow : ∀ t : EC, t.reliable →
      (charge_control_threshold_show true AORUS5KE0 stored t).2.1
        = toString (field_value ⟨0xA9, 8, 0⟩ t) := by
    intro t ht
    unfold charge_control_threshold_show
    simp only [Bool.not_true, Bool.false_eq_true, if_false, threshold_loc]
    rw [read_addr_bit_ok _ _ _ (Or.inr rfl) (ht _)]
    simp [sysfs_emit]
  rw [hshow _ hrel]
  have h2 := charging_named_lt m name hm
  interval_cases m
  · have hb := hval (⟨0xA9, 8, 0⟩, 0x61) (by simp [AORUS5KE0])
    simp only [] at hb
    rw [hb]
    exact ⟨0x61, by decide, by decide, by decide, by decide⟩
  · have hb := hval (⟨0xA9, 8, 0⟩, 0x3C) (by simp [AORUS5KE0])
    simp only [] at hb
    rw [hb]
    exact ⟨0x3C, by decide, by decide, by decide, by decide⟩

/-- Witness for C18: after custom on the all-zero EC the threshold reads "60". -/
theorem charging_mode_keeps_threshold_in_range_witness :
    ∃ v, (charge_control_threshold_show true AORUS5KE0 0
            (gigabyte_change_charging_mode AORUS5KE0 1 ec_zero).2).2.1 = toString v ∧
      v = (AORUS5KE0.charging_mode.modes.getD 1 GIGABYTE_EC_MODE_NULL).value.getD 1 0 ∧
      AORUS5KE0.charge_threshold.range_min ≤ v ∧
      v ≤ AORUS5KE0.charge_threshold.range_max :=
  (charging_mode_keeps_threshold_in_range ec_zero 0 (fun _ => rfl)).2.2.2 1 "custom" rfl

/-- C19. An unsupported field size is a silent no-op: for a field location whose
size is neither 1 nor 8, `write_addr_bit` and `read_addr_bit` return 0 and leave
the EC, access trace included, and the output byte as they were. Every field
location of the AORUS5KE0 profile has size 1 or 8. -/
theorem unsupported_size_noop (loc : gigabyte_ec_addr_bit) (v out : Nat) (s : EC)
    (h1 : loc.size ≠ 1) (h8 : loc.size ≠ 8) :
    write_addr_bit loc v s = (0, s) ∧
    read_addr_bit loc out s = (0, out, s) ∧
    (∀ l ∈ AORUS5KE0.fan_mode.addr_bit ++ AORUS5KE0.charging_mode.addr_bit ++
        AORUS5KE0.charge_threshold.addr_bit, l.size = 1 ∨ l.size = 8) := by
  refine ⟨?_, ?_, by decide⟩
  · simp [write_addr_bit, h1, h8]
  · simp [read_addr_bit, h1, h8]

/-- Witness for C19: a field location of size 4 on the dead transport. -/
theorem unsupported_size_noop_witness :
    write_addr_bit ⟨0x06, 4, 0⟩ 1 ec_dead = (0, ec_dead) ∧
    read_addr_bit ⟨0x06, 4, 0⟩ 7 ec_dead = (0, 7, ec_dead) :=
  ⟨(unsupported_size_noop ⟨0x06, 4, 0⟩ 1 7 ec_dead (by decide) (by decide)).1,
   (unsupported_size_noop ⟨0x06, 4, 0⟩ 1 7 ec_dead (by decide) (by decide)).2.1⟩

end GigabyteEC
